import Mathlib

/-!
Verification development for the daily_brief pipeline.

The Python modules under daily_brief/ are shallowly embedded below:
pure functions become Lean functions; the in-place mutation of the item
list by the classifiers becomes explicit state threading (each stage maps
a `List NewsItem` to a new `List NewsItem`); a Python exception becomes an
`Except`/`Option String` error component carried alongside the state, so
that the partially mutated list at the moment an exception propagates is
still observable; calls to the external OpenAI client become oracle
functions supplied as arguments (one outcome per attempt of each call
site), which lets a single definition be evaluated under every pattern of
gateway successes, rate limits and other exceptions.

Dictionary fields accessed with `.get(k, "")` in Python are modelled as
`String` fields where `""` plays the role of an absent (falsy) value;
the labels written by the pipeline are never the empty string, so this
identification is faithful for every behaviour studied here.
-/

namespace DailyBrief

/-- Substring containment on character lists: `needle` occurs inside `hay`.
Embeds the Python `in` operator on strings. -/
def containsSub (hay needle : List Char) : Bool :=
  match hay with
  | [] => needle == []
  | _ :: t => needle.isPrefixOf hay || containsSub t needle

/-- Replace the element at position `n` (0-based) by `f` of it; identity when
`n` is out of range.  Embeds an in-place update `items[n] = f(items[n])`. -/
def modifyAt (f : α → α) : Nat → List α → List α
  | _, [] => []
  | 0, x :: xs => f x :: xs
  | n + 1, x :: xs => x :: modifyAt f n xs

/-- Python `str.strip()`: remove leading and trailing whitespace
(implemented on the character list so that it evaluates by reduction). -/
def pyStrip (s : String) : String :=
  String.mk (((s.data.dropWhile Char.isWhitespace).reverse.dropWhile Char.isWhitespace).reverse)

/-- Python `str.split()` with no argument: the maximal whitespace-free
words, dropping all whitespace runs. -/
def pySplitWsAux : List Char → List Char → List String
  | [], cur => if cur.isEmpty then [] else [String.mk cur.reverse]
  | c :: rest, cur =>
    if c.isWhitespace then
      if cur.isEmpty then pySplitWsAux rest []
      else String.mk cur.reverse :: pySplitWsAux rest []
    else pySplitWsAux rest (c :: cur)

def pySplitWs (s : String) : List String := pySplitWsAux s.data []

/-- One fetched article (daily_brief data model).  `sector`, `sentiment` and
`region` are `""` while unset. -/
structure NewsItem where
  headline : String := ""
  url : String := ""
  content : String := ""
  source : String := ""
  region : String := ""
  sector : String := ""
  sentiment : String := ""
deriving DecidableEq, Inhabited

/-- Outcome of one attempt of a `client.…create(…)` call, as observed by the
retry wrappers: a successful response (already parsed into the shape the
caller extracts from it), an `openai.RateLimitError`, or any other
exception carrying its message. -/
inductive CallResult (α : Type) where
  | ok (a : α)
  | rateLimit
  | exn (e : String)
deriving DecidableEq

/-- GICS top-level sector names (config.GICS_SECTORS keys; the descriptions
are never read by the classifier). -/
def GICS_SECTORS : List String :=
  ["Energy", "Materials", "Industrials", "Consumer Discretionary",
   "Consumer Staples", "Health Care", "Financials", "Information Technology",
   "Communication Services", "Utilities", "Real Estate"]

namespace ClassifySector

def MAX_PER_BATCH : Nat := 12
def MAX_RETRIES : Nat := 6

/-- Loop body of `_backoff_chat` (classify_sector.py lines 13-20): retry up
to `n` more times starting at attempt `k`; a `RateLimitError` sleeps and
retries, any other exception propagates, and falling off the loop returns
`None` (modelled as `.ok none`). -/
def backoffChatGo (attempt : Nat → CallResult α) : Nat → Nat → Except String (Option α)
  | _, 0 => .ok none
  | k, n + 1 =>
    match attempt k with
    | .ok a => .ok (some a)
    | .exn e => .error e
    | .rateLimit => backoffChatGo attempt (k + 1) n

/-- classify_sector._backoff_chat: six tries; only `RateLimitError` is
caught, and exhausting the tries returns `None` rather than raising. -/
def _backoff_chat (attempt : Nat → CallResult α) : Except String (Option α) :=
  backoffChatGo attempt 0 MAX_RETRIES

/-- Scan of the model answer in `_single_classify` (lines 42-46): the first
sector of GICS_SECTORS occurring as a substring of the answer, else
"Unknown". -/
def findSector (answer : String) : String :=
  match GICS_SECTORS.find? (fun sector => containsSub answer.data sector.data) with
  | some sector => sector
  | none => "Unknown"

/-- classify_sector._single_classify for the item whose per-item prompt has
attempt outcomes `attempt`: `None` from the gateway yields "Unknown",
otherwise the answer text (the stripped response content; the oracle
carries it post-strip) is scanned for a sector name.  A non-rate-limit
exception inside `_backoff_chat` propagates. -/
def _single_classify (attempt : Nat → CallResult String) : Except String String :=
  match _backoff_chat attempt with
  | .error e => .error e
  | .ok none => .ok "Unknown"
  | .ok (some answer) => .ok (findSector answer)

/-- Structural worker for `_chunks`: the fuel only bounds the recursion
depth and is never exhausted when it starts at the list length and
`0 < n`, since each step drops at least one element. -/
def chunksGo (n : Nat) : Nat → List α → List (List α)
  | _, [] => []
  | 0, _ :: _ => []
  | fuel + 1, x :: xs => (x :: xs).take n :: chunksGo n fuel ((x :: xs).drop n)

/-- classify_sector._chunks: consecutive slices of size `n` of the index
list (the Python generator `idx_list[i:i+n]` for `i = 0, n, 2n, …`; the
source only instantiates `n` with MAX_PER_BATCH = 12). -/
def _chunks (l : List α) (n : Nat) : List (List α) :=
  chunksGo n l.length l

/-- One entry of the JSON array returned by a batch response, after
`_safe_json_array`: `entry.get("i", 0)` (an absent key is the default 0,
which the bounds guard then ignores) and `entry.get("sector", "Unknown")`. -/
structure SectorEntry where
  i : Int
  sector : String
deriving DecidableEq

/-- The gateway as seen by batch_assign_sector: for the `b`-th batch call
and the per-item call about item `i`, the outcome of each retry attempt.
A successful batch response carries the result of parsing its payload with
`_safe_json_array`: `none` when parsing raises, `some entries` otherwise. -/
structure SectorGateway where
  batchAttempts : Nat → Nat → CallResult (Option (List SectorEntry))
  itemAttempts : Nat → Nat → CallResult String

/-- Application of one mapping entry (lines 92-96): coerce the sector to
"Unknown" unless it is a valid GICS name, and write it at the absolute
0-based index `entry.i - 1` only when that is in range. -/
def applySectorEntry (items : List NewsItem) (e : SectorEntry) : List NewsItem :=
  if 0 ≤ e.i - 1 ∧ e.i - 1 < (items.length : Int) then
    modifyAt
      (fun it => { it with sector := if e.sector ∈ GICS_SECTORS then e.sector else "Unknown" })
      (e.i - 1).toNat items
  else items

/-- Per-item fallback loop for one batch (lines 74-77 and 85-88): classify
each item of the group individually; an exception from `_single_classify`
propagates, leaving the items mutated so far. -/
def perItemFallback (gw : SectorGateway) : List Nat → List NewsItem → Option String × List NewsItem
  | [], items => (none, items)
  | i :: rest, items =>
    match _single_classify (gw.itemAttempts i) with
    | .error e => (some e, items)
    | .ok s => perItemFallback gw rest (modifyAt (fun it => { it with sector := s }) i items)

/-- The batched loop of batch_assign_sector (lines 60-96): for each
`(batch number, index group)`, either the gateway exhausts (fall back
per-item), the payload is unparseable (fall back per-item), a mapping is
applied, or a non-rate-limit exception propagates. -/
def processSectorBatches (gw : SectorGateway) :
    List (Nat × List Nat) → List NewsItem → Option String × List NewsItem
  | [], items => (none, items)
  | (b, group) :: rest, items =>
    match _backoff_chat (gw.batchAttempts b) with
    | .error e => (some e, items)
    | .ok none | .ok (some none) =>
      match perItemFallback gw group items with
      | (some e, l) => (some e, l)
      | (none, l) => processSectorBatches gw rest l
    | .ok (some (some entries)) =>
      processSectorBatches gw rest (entries.foldl applySectorEntry items)

/-- Final sweep (lines 99-101): any item whose sector is still unset is
classified once via the per-item path. -/
def finalSweep (gw : SectorGateway) : List Nat → List NewsItem → Option String × List NewsItem
  | [], items => (none, items)
  | i :: rest, items =>
    if (items.getD i default).sector ≠ "" then finalSweep gw rest items
    else
      match _single_classify (gw.itemAttempts i) with
      | .error e => (some e, items)
      | .ok s => finalSweep gw rest (modifyAt (fun it => { it with sector := s }) i items)

/-- The enumerated batches of `batch_assign_sector` over `n` items: the
`b`-th slice of size MAX_PER_BATCH of the absolute index list. -/
def groupsFor (n : Nat) : List (Nat × List Nat) :=
  (_chunks (List.range n) MAX_PER_BATCH).enum

/-- classify_sector.batch_assign_sector: batches over the absolute index
list, then the final sweep.  The first component is the message of an
exception that escaped the call (Python raises it to the caller), the
second the list state at that moment. -/
def batch_assign_sector (gw : SectorGateway) (items : List NewsItem) :
    Option String × List NewsItem :=
  if items.isEmpty then (none, items)
  else
    match processSectorBatches gw (groupsFor items.length) items with
    | (some e, l) => (some e, l)
    | (none, l) => finalSweep gw (List.range l.length) l

end ClassifySector

namespace AnalyzeSentiment

/-- config.MAX_PER_BATCH (default "6"), imported by analyze_sentiment.py. -/
def MAX_PER_BATCH : Nat := 6

/-- One entry of the `mapping` array of a sentiment response
(`{"i": …, "sentiment": …}`); the strict response schema promises both
keys, and the code reads them without further checks. -/
structure SentEntry where
  i : Int
  sentiment : String
deriving DecidableEq

/-- The gateway as seen by batch_assign_sentiment: the outcome of each
retry attempt of the `b`-th batched `client.responses.create` call.  A
successful response carries the result of `json.loads(resp.output_text)`
followed by the `data["mapping"]` lookup: `none` when that raises
(malformed JSON or a missing key — the exception is unhandled in the
source), `some mapping` otherwise. -/
structure SentimentGateway where
  attempts : Nat → Nat → CallResult (Option (List SentEntry))

/-- Loop body of analyze_sentiment._backoff (lines 34-44): retry on
`RateLimitError`, re-raise any other exception, and raise
`RuntimeError("Rate limit: retries exhausted")` after six tries. -/
def backoffGo (attempt : Nat → CallResult α) : Nat → Nat → Except String α
  | _, 0 => .error "Rate limit: retries exhausted"
  | k, n + 1 =>
    match attempt k with
    | .ok a => .ok a
    | .exn e => .error e
    | .rateLimit => backoffGo attempt (k + 1) n

/-- analyze_sentiment._backoff: six tries, hard failure on exhaustion. -/
def _backoff (attempt : Nat → CallResult α) : Except String α :=
  backoffGo attempt 0 6

/-- Structural worker for the `_chunks` generator; the fuel bounds the
number of yielded groups and is never exhausted when it starts at `n + 1`,
since the position advances by MAX_PER_BATCH ≥ 1 each step. -/
def chunkGo (n : Nat) : Nat → Nat → List (List Nat)
  | 0, _ => []
  | fuel + 1, i =>
    if n ≤ i + MAX_PER_BATCH then [List.range' i (min (i + MAX_PER_BATCH) n - i)]
    else List.range' i (min (i + MAX_PER_BATCH) n - i) :: chunkGo n fuel (i + MAX_PER_BATCH)

/-- analyze_sentiment._chunks (lines 46-52): starting at `i = 0`, yield
`range(i, min(i + MAX_PER_BATCH, n))`, advance by MAX_PER_BATCH, stop once
`i ≥ n`.  With `n = 0` this still yields one empty group, as in Python. -/
def _chunks (n : Nat) : List (List Nat) := chunkGo n (n + 1) 0

/-- Application of one mapping entry (lines 87-90): write the sentiment
verbatim at the absolute 0-based index `m.i - 1` when in range; no
validation of the label is performed in the code (the strict schema is
trusted). -/
def applySentEntry (items : List NewsItem) (m : SentEntry) : List NewsItem :=
  if 0 ≤ m.i - 1 ∧ m.i - 1 < (items.length : Int) then
    modifyAt (fun it => { it with sentiment := m.sentiment }) (m.i - 1).toNat items
  else items

/-- The batched loop of batch_assign_sentiment (lines 65-90): the `b`-th
group of target positions is turned into absolute indices, the batch call
is made through `_backoff`, and its mapping is applied.  There is no
per-item fallback: a hard failure of `_backoff`, or an unparseable
payload, raises out of the whole function. -/
def processSentBatches (gw : SentimentGateway) (targets : List Nat) :
    Nat → List (List Nat) → List NewsItem → Option String × List NewsItem
  | _, [], items => (none, items)
  | b, grp :: rest, items =>
    if (grp.map (fun j => targets.getD j 0)).isEmpty then (none, items)
    else
      match _backoff (gw.attempts b) with
      | .error e => (some e, items)
      | .ok none => (some "JSONDecodeError", items)
      | .ok (some mapping) =>
        processSentBatches gw targets (b + 1) rest (mapping.foldl applySentEntry items)

/-- `targets = [i for i, it in enumerate(items) if not it.get("sentiment")]`. -/
def targetsOf (items : List NewsItem) : List Nat :=
  ((items.enum).filter (fun p => p.2.sentiment = "")).map (fun p => p.1)

/-- analyze_sentiment.batch_assign_sentiment: collect the positions whose
sentiment is unset, process them in batches, then default any still-unset
sentiment to "Neutral".  The first component is the message of an
exception that escaped the call, the second the list state then. -/
def batch_assign_sentiment (gw : SentimentGateway) (items : List NewsItem) :
    Option String × List NewsItem :=
  if items.isEmpty then (none, items)
  else
    if (targetsOf items).isEmpty then (none, items)
    else
      match processSentBatches gw (targetsOf items) 0 (_chunks (targetsOf items).length) items with
      | (some e, l) => (some e, l)
      | (none, l) =>
        (none, l.map (fun it => if it.sentiment = "" then { it with sentiment := "Neutral" } else it))

end AnalyzeSentiment

namespace DetectThemes

/-- Loop body of detect_themes._backoff (lines 49-58): every exception is
caught and retried, except on the last attempt (`attempt == 5`), where it
is re-raised; a rate limit is an exception like any other here. -/
def themGo (attempt : Nat → CallResult α) : Nat → Nat → Except String α
  | k, 0 =>
    match attempt k with
    | .ok a => .ok a
    | .rateLimit => .error "RateLimitError"
    | .exn e => .error e
  | k, r + 1 =>
    match attempt k with
    | .ok a => .ok a
    | _ => themGo attempt (k + 1) r

/-- detect_themes._backoff: six tries, the last failure propagates. -/
def _backoff (attempt : Nat → CallResult α) : Except String α :=
  themGo attempt 0 5

/-- `idx2item.get(i, {}).get("region", "Global")`: the region of the item at
1-based index `i`, where an unset region reads as "Global". -/
def regionGet (it : NewsItem) : String := if it.region = "" then "Global" else it.region

/-- The multiset counted by `_majority_region` (line 61): the regions of
the valid supporting indices, in encounter order. -/
def regionSeq (indices : List Int) (items : List NewsItem) : List String :=
  (indices.filter (fun i => decide (1 ≤ i ∧ i ≤ (items.length : Int)))).map
    (fun i => regionGet (items.getD (i - 1).toNat default))

/-- Number of occurrences of `x` in `l` (a `collections.Counter` count). -/
def countOcc (l : List String) (x : String) : Nat := (l.filter (fun y => y == x)).length

/-- The keys of a `Counter` built over `l`, in first-occurrence order
(Python dict insertion order). -/
def firstsAux (seen : List String) : List String → List String
  | [] => []
  | x :: xs => if x ∈ seen then firstsAux seen xs else x :: firstsAux (x :: seen) xs

def firsts (l : List String) : List String := firstsAux [] l

/-- One step of selecting the most common key: keep the earlier key unless
the later one has a strictly greater count. -/
def pickStep (seq : List String) (best : Option String) (c : String) : Option String :=
  match best with
  | none => some c
  | some b => if countOcc seq b < countOcc seq c then some c else some b

/-- `Counter(seq).most_common(1)[0][0]`: among the keys in first-occurrence
order, the first one attaining the maximal count (Python sort is stable,
so ties keep insertion order). -/
def mostCommonFirst (seq : List String) : Option String :=
  (firsts seq).foldl (pickStep seq) none

/-- detect_themes._majority_region (lines 60-65): "Mixed" when no valid
index contributes a count, else the most common region (with the `region
or "Mixed"` guard on a falsy winner). -/
def _majority_region (indices : List Int) (items : List NewsItem) : String :=
  match mostCommonFirst (regionSeq indices items) with
  | none => "Mixed"
  | some region => if region = "" then "Mixed" else region

/-- detect_themes._related_from_support (lines 67-78): the headlines of the
valid supporting items, in index order, stopping once `max_related` titles
are collected (empty headlines are skipped). -/
def relatedGo (items : List NewsItem) (maxRelated : Nat) :
    List Int → List String → List String
  | [], acc => acc
  | i :: rest, acc =>
    if ¬(1 ≤ i ∧ i ≤ (items.length : Int)) then relatedGo items maxRelated rest acc
    else
      let h := (items.getD (i - 1).toNat default).headline
      let acc2 := if h = "" then acc else acc ++ [h]
      if maxRelated ≤ acc2.length then acc2 else relatedGo items maxRelated rest acc2

def _related_from_support (indices : List Int) (items : List NewsItem)
    (maxRelated : Nat := 5) : List String :=
  relatedGo items maxRelated indices []

/-- One candidate theme of the parsed model response: `t.get("theme", "")`,
`t.get("description", "")` and the integer elements of
`t.get("support", [])` (non-integers are dropped by the `isinstance`
check, so only the integer entries are modelled). -/
structure RawTheme where
  theme : String := ""
  description : String := ""
  support : List Int := []
deriving DecidableEq

/-- An enriched theme as returned by find_emerging_themes. -/
structure Theme where
  theme : String
  description : String
  region : String
  priority : ℚ
  related_news : List String
deriving DecidableEq

/-- `[int(x) for x in t.get("support", []) if isinstance(x, int) and x in idx2item]`
where `idx2item` has keys 1..n. -/
def filteredSupport (n : Nat) (t : RawTheme) : List Int :=
  t.support.filter (fun x => decide (1 ≤ x ∧ x ≤ (n : Int)))

/-- The enrichment applied to one kept candidate (lines 126-135):
`.strip()[:140]` on the title, majority region, step-function priority and
bounded related headlines from the filtered support. -/
def enrichTheme (items : List NewsItem) (t : RawTheme) : Theme :=
  let support := filteredSupport items.length t
  { theme := String.mk ((pyStrip t.theme).data.take 140)
    description := pyStrip t.description
    region := _majority_region support items
    priority := if 4 ≤ support.length then 1 else if 3 ≤ support.length then 7/10 else 1/2
    related_news := _related_from_support support items }

/-- The model path of find_emerging_themes (lines 120-137): drop every
candidate whose filtered support is empty, enrich the rest, and truncate
to `max_themes`.  (The trending-term fallback taken when this list is
empty or the model call fails is a separate code path, not modelled
here.) -/
def modelPathThemes (items : List NewsItem) (rawThemes : List RawTheme)
    (maxThemes : Nat) : List Theme :=
  (((rawThemes.filter (fun t => !(filteredSupport items.length t).isEmpty)).map
    (enrichTheme items)).take maxThemes)

end DetectThemes

namespace GenerateBrief

/-- The alternations of the `_ID_WORDS` regex of generate_brief.py. -/
def _ID_WORDS : List String :=
  ["Indonesia", "Indonesian", "Jakarta", "JCI", "IDX", "Bank Indonesia"]

/-- The alternations of the `_ASIA_WORDS` regex. -/
def _ASIA_WORDS : List String :=
  ["Asia", "China", "Japan", "Korea", "Taiwan", "Hong", "Nikkei", "Hang", "Kospi", "SGX"]

/-- A regex word character (`\w`), restricted to the ASCII letters, digits
and underscore that the matched keyword lists can border on. -/
def isWordChar (c : Char) : Bool := c.isAlphanum || c == '_'

/-- Case-insensitive prefix match of `pat` against `text`. -/
def matchesCI : List Char → List Char → Bool
  | [], _ => true
  | _ :: _, [] => false
  | p :: ps, t :: ts => (p.toLower == t.toLower) && matchesCI ps ts

def okBoundary : Option Char → Bool
  | none => true
  | some c => !isWordChar c

def okAfter : List Char → Bool
  | [] => true
  | c :: _ => !isWordChar c

/-- `re.search` of `\b pat \b` (case-insensitive) over `text`, with `prev`
the character before the current position (`none` at the start). -/
def wordSearchGo (pat : List Char) : Option Char → List Char → Bool
  | prev, [] => okBoundary prev && matchesCI pat [] && okAfter []
  | prev, c :: rest =>
    (okBoundary prev && matchesCI pat (c :: rest) && okAfter ((c :: rest).drop pat.length))
    || wordSearchGo pat (some c) rest

/-- Whether any word of the alternation matches in `text` with word
boundaries, case-insensitively. -/
def regexSearch (words : List String) (text : String) : Bool :=
  words.any (fun w => wordSearchGo w.data none text.data)

/-- generate_brief._is_indonesia_item: `".id" in url` or an `_ID_WORDS`
match in headline + " " + content. -/
def _is_indonesia_item (it : NewsItem) : Bool :=
  containsSub it.url.data ".id".data
    || regexSearch _ID_WORDS (it.headline ++ " " ++ it.content)

/-- generate_brief._is_asia_item: an `_ASIA_WORDS` match, and not an
Indonesia item. -/
def _is_asia_item (it : NewsItem) : Bool :=
  regexSearch _ASIA_WORDS (it.headline ++ " " ++ it.content) && !(_is_indonesia_item it)

/-- Drop everything up to and including the first occurrence of `needle`;
`none` when `needle` does not occur. -/
def dropAfterSub (hay needle : List Char) : Option (List Char) :=
  match hay with
  | [] => if needle == [] then some [] else none
  | _ :: t => if needle.isPrefixOf hay then some (hay.drop needle.length) else dropAfterSub t needle

/-- Remove every (non-overlapping, left-to-right) occurrence of `pat`; the
fuel starts at the text length and is never exhausted since each step
consumes at least one character. -/
def removeSubGo (pat : List Char) : Nat → List Char → List Char
  | 0, l => l
  | _ + 1, [] => []
  | fuel + 1, c :: rest =>
    if pat.isPrefixOf (c :: rest) && !pat.isEmpty then
      removeSubGo pat fuel ((c :: rest).drop pat.length)
    else c :: removeSubGo pat fuel rest

/-- Python `str.replace(pat, "")`. -/
def removeSub (s pat : List Char) : List Char := removeSubGo pat s.length s

/-- generate_brief._hostname: the hostname of `u` — `urlparse(u).netloc`
(taken here as the run between the first "://" and the next "/", "?" or
"#") with every "www." removed and anything from ":" on dropped; "source"
when that leaves nothing or the URL has no netloc. -/
def _hostname (u : String) : String :=
  match dropAfterSub u.data "://".data with
  | none => "source"
  | some rest =>
    let netloc : List Char := rest.takeWhile (fun c => !(c == '/' || c == '?' || c == '#'))
    let host := String.mk ((removeSub netloc "www.".data).takeWhile (fun c => !(c == ':')))
    if host = "" then "source" else host

/-- `" ".join(txt.split())`: collapse whitespace runs and trim. -/
def normalizeWS (txt : String) : String :=
  String.intercalate " " (pySplitWs txt)

/-- generate_brief._summ_text_from_items: up to eight "- headline" lines,
or the default text when no headline is available. -/
def _summ_text_from_items (items : List NewsItem) (default_ : String) : String :=
  let heads := ((items.take 8).filter (fun it => it.headline ≠ "")).map
    (fun it => "- " ++ it.headline)
  let joined := String.intercalate "\n" heads
  if joined = "" then default_ else joined

/-- generate_brief._llm_summarize, with the model call abstracted as
`llm : prompt ↦ optional response text` (`none` covers a missing SDK or
API key, an exception, and every other path on which the source returns
`""`).  A successful response is whitespace-sanitized. -/
def _llm_summarize (llm : String → Option String) (ctx : String) : String :=
  if pyStrip ctx = "" then ""
  else
    match llm ctx with
    | none => ""
    | some txt => normalizeWS (pyStrip txt)

/-- generate_brief._fallback_summary: the deterministic templated summary
from sentiment counts. -/
def _fallback_summary (items : List NewsItem) (label : String) : String :=
  let pos := (items.filter (fun it => it.sentiment == "Positive")).length
  let neg := (items.filter (fun it => it.sentiment == "Negative")).length
  let neu := (items.filter (fun it => it.sentiment == "Neutral")).length
  label ++ " headlines today: " ++ toString items.length ++ " items (Positive "
    ++ toString pos ++ ", Negative " ++ toString neg ++ ", Neutral " ++ toString neu ++ ")."

/-- The per-region market summaries input; an absent key reads as `""`. -/
structure MarketSummaries where
  global : String := ""
  asia : String := ""
  indonesia : String := ""
deriving DecidableEq

/-- An economic events entry; `impact` is `""` when absent. -/
structure EconEvent where
  event : String := ""
  impact : String := ""
deriving DecidableEq

/-- A watchlist alert object as built by the orchestrator:
`{"alert": …, "related_topics": [], "reference_url": …}`. -/
structure AlertObj where
  alert : String := ""
  related_topics : List String := []
  reference_url : Option String := none
deriving DecidableEq

/-- Per-sector Positive/Negative/Neutral counts (sentiment_indicators). -/
structure SentCounts where
  positive : Nat := 0
  negative : Nat := 0
  neutral : Nat := 0
deriving DecidableEq

/-- One item view inside news_by_sector of the composed document. -/
structure SectorBlock where
  headline : String
  sentiment : String
  source : String
  url : String
deriving DecidableEq

/-- The composed Brief document (brief_json). -/
structure Brief where
  date : String
  market_summaries : MarketSummaries
  economic_events : List EconEvent
  news_by_sector : List (String × List SectorBlock)
  watchlist_alerts : List AlertObj
  emerging_themes : List DetectThemes.Theme
  sentiment_indicators : List (String × SentCounts)
deriving DecidableEq

/-- The item view built for each item of a sector (lines 147-157). -/
def blockOf (it : NewsItem) : SectorBlock :=
  { headline := it.headline
    sentiment := if it.sentiment = "" then "Neutral" else it.sentiment
    source := if it.source = "" then _hostname it.url else it.source
    url := it.url }

/-- generate_brief.compose_and_generate, restricted to the brief_json
component it returns first.  The Markdown in the pair (lines 160-214) is a
pure rendering of brief_json and the same inputs, makes no model call and
introduces no data, so no claim concerns it.  `llm` abstracts the optional
summary model calls. -/
def compose_and_generate (llm : String → Option String) (date_ : String)
    (market_summaries : MarketSummaries) (economic_events : List EconEvent)
    (news_by_sector : List (String × List NewsItem))
    (watchlist_alerts : List AlertObj) (emerging_themes : List DetectThemes.Theme)
    (sentiment_indicators : List (String × SentCounts)) : Brief :=
  let all_items := (news_by_sector.map (fun p => p.2)).flatten
  let indo_items := all_items.filter _is_indonesia_item
  let asia_items := all_items.filter _is_asia_item
  let global_items := all_items
  let global_sum0 := market_summaries.global
  let asia_sum0 := market_summaries.asia
  let indo_sum0 := market_summaries.indonesia
  let global_sum :=
    if global_sum0 = "" then
      let s := _llm_summarize llm (_summ_text_from_items global_items "Global market headlines.")
      if s = "" then _fallback_summary global_items "Global" else s
    else global_sum0
  let asia_sum :=
    if asia_sum0 = "" then
      let s := _llm_summarize llm (_summ_text_from_items asia_items "Asia market headlines.")
      if s = "" then _fallback_summary asia_items "Asia" else s
    else asia_sum0
  let indo_sum :=
    if indo_sum0 = "" then
      let s := _llm_summarize llm (_summ_text_from_items indo_items "Indonesia market headlines.")
      if s = "" then _fallback_summary indo_items "Indonesia" else s
    else indo_sum0
  { date := date_
    market_summaries := { global := global_sum, asia := asia_sum, indonesia := indo_sum }
    economic_events := economic_events
    news_by_sector :=
      (news_by_sector.mergeSort (fun a b => a.1 ≤ b.1)).map
        (fun p => (p.1, p.2.map blockOf))
    watchlist_alerts := watchlist_alerts
    emerging_themes := emerging_themes
    sentiment_indicators := sentiment_indicators }

/-- Whether a string is itself an http(s) URL. -/
def isHttpUrl (s : String) : Bool :=
  "http://".data.isPrefixOf s.data || "https://".data.isPrefixOf s.data

/-- The URLs of the structured url fields of the document. -/
def newsURLs (b : Brief) : List String :=
  (b.news_by_sector.map (fun p => p.2.map (fun blk => blk.url))).flatten

/-- The URLs appearing in the document: structured url fields, alert
reference URLs, and any free-text summary field that is itself a URL (the
weakest reasonable reading of "a URL appearing in the Brief"). -/
def urlsInBrief (b : Brief) : List String :=
  newsURLs b
    ++ (b.watchlist_alerts.filterMap (fun a => a.reference_url))
    ++ ([b.market_summaries.global, b.market_summaries.asia,
         b.market_summaries.indonesia].filter isHttpUrl)

/-- The URLs present in the composer's inputs: the items of news_by_sector
and the alert reference URLs. -/
def composerInputURLs (news_by_sector : List (String × List NewsItem))
    (watchlist_alerts : List AlertObj) : List String :=
  ((news_by_sector.map (fun p => p.2.map (fun it => it.url))).flatten)
    ++ (watchlist_alerts.filterMap (fun a => a.reference_url))

end GenerateBrief

namespace UtilsCache

/-- A cache value `{sector, sentiment}` as written back for one URL. -/
structure CacheEntry where
  sector : String := ""
  sentiment : String := ""
deriving DecidableEq

/-- First-match association lookup (Python dict access). -/
def lookupKey (k : String) : List (String × CacheEntry) → Option CacheEntry
  | [] => none
  | (k2, v) :: rest => if k2 = k then some v else lookupKey k rest

/-- `d[k] = v` on the flat store: replace the existing binding or append. -/
def storeKey (k : String) (v : CacheEntry) : List (String × CacheEntry) → List (String × CacheEntry)
  | [] => [(k, v)]
  | (k2, v2) :: rest => if k2 = k then (k, v) :: rest else (k2, v2) :: storeKey k v rest

/-- utils_cache.get: look the hashed URL up in the loaded store; an absent
key yields the empty dict (modelled as `none`).  `keyFn` abstracts the
SHA-256 hex fingerprint `_key`. -/
def get (keyFn : String → String) (store : List (String × CacheEntry)) (url : String) :
    Option CacheEntry :=
  lookupKey (keyFn url) store

/-- utils_cache.set: store the value under the hashed URL and persist the
whole mapping; the returned store is the persisted state. -/
def set (keyFn : String → String) (store : List (String × CacheEntry)) (url : String)
    (value : CacheEntry) : List (String × CacheEntry) :=
  storeKey (keyFn url) value store

end UtilsCache

namespace Orchestrator

/-- The observable outcome of the tail of run_morning_brief: the message of
an exception escaping the function, and the files written. -/
structure SaveResult where
  err : Option String
  files : List (String × String)
deriving DecidableEq

/-- The validate-and-save tail of orchestrator.run_morning_brief (lines
114-126): `jsonschema.validate` is called with no surrounding handler, so
it raises `ValidationError` whenever the composed document does not
conform (conformance is the Boolean `schemaOK`, the schema itself being an
external data file), and only on success are `outputs/{date}_brief.json`
and `outputs/{date}_brief.md` written. -/
def validateAndSave (schemaOK : Bool) (dateStr briefJson briefMd : String) : SaveResult :=
  if schemaOK then
    { err := none
      files := [("outputs/" ++ dateStr ++ "_brief.json", briefJson),
                ("outputs/" ++ dateStr ++ "_brief.md", briefMd)] }
  else
    { err := some "ValidationError", files := [] }

end Orchestrator

/-! ## Notions derived from the embedding, and the concrete instances used
by the verification below -/

namespace ClassifySector

/-- The set of labels batch_assign_sector is allowed to leave behind. -/
def validSector (s : String) : Prop := s ∈ GICS_SECTORS ∨ s = "Unknown"

/-- Forget the sector field; two items with equal `clearSector` agree on
every other field. -/
def clearSector (it : NewsItem) : NewsItem := { it with sector := "" }

/-- The labels allowed for a given value predicate `S`: every item is
unlabeled or carries an `S`-label. -/
def sectorInvP (S : String → Prop) (l : List NewsItem) : Prop :=
  ∀ it ∈ l, it.sector = "" ∨ S it.sector

/-- No attempt of any gateway call raises a non-rate-limit exception; rate
limits and successes are unrestricted. -/
def noExn (gw : SectorGateway) : Prop :=
  (∀ b k e, gw.batchAttempts b k ≠ .exn e) ∧ ∀ i k e, gw.itemAttempts i k ≠ .exn e

/-- Two item-list states that agree in length and, position by position,
outside the index set `G`. -/
def agreeOutside (G : List Nat) (l1 l2 : List NewsItem) : Prop :=
  l1.length = l2.length ∧ ∀ j, j ∉ G → l1.getD j default = l2.getD j default

end ClassifySector

namespace AnalyzeSentiment

/-- Forget the sentiment field. -/
def clearSentiment (it : NewsItem) : NewsItem := { it with sentiment := "" }

/-- The closed sentiment label set of the response schema. -/
def validSent (s : String) : Prop := s = "Positive" ∨ s = "Negative" ∨ s = "Neutral"

/-- Every item is unlabeled or carries a schema-valid sentiment. -/
def sentInvP (l : List NewsItem) : Prop :=
  ∀ it ∈ l, it.sentiment = "" ∨ validSent it.sentiment

end AnalyzeSentiment

instance : DecidablePred ClassifySector.validSector := fun s => by
  unfold ClassifySector.validSector
  infer_instance

instance : DecidablePred AnalyzeSentiment.validSent := fun s => by
  unfold AnalyzeSentiment.validSent
  infer_instance

/-- An always-rate-limited attempt sequence, used to instantiate the
exhaustion statements. -/
def rlAttempt : Nat → CallResult String := fun _ => .rateLimit

def itemsC5 : List NewsItem := [{ headline := "Nickel export ban", region := "Asia" }]
def rawGood : DetectThemes.RawTheme :=
  { theme := "Commodities", description := "Export policy", support := [1] }
def rawBad : DetectThemes.RawTheme :=
  { theme := "Ghost", description := "No support", support := [7] }
def rawsC5 : List DetectThemes.RawTheme := [rawGood, rawBad]

def itAsia : NewsItem := { headline := "a", region := "Asia" }
def itGlobal : NewsItem := { headline := "g", region := "Global" }

/-- A summary model that replies with a URL of its own invention. -/
def llmFab : String → Option String := fun _ => some "https://fabricated.example/x"

/-- A summary model that answers with plain prose. -/
def llmOk : String → Option String := fun _ => some "Markets steady"

def itC4 : NewsItem :=
  { headline := "Oil up", url := "https://a.com/1", source := "a.com", sentiment := "Positive" }

def nbsC4 : List (String × List NewsItem) := [("Energy", [itC4])]

/-- A well-behaved sector gateway: the one batch response maps item 1 to
Energy, per-item calls answer Financials. -/
def gwC2sector : ClassifySector.SectorGateway :=
  { batchAttempts := fun _ _ => .ok (some [{ i := 1, sector := "Energy" }])
    itemAttempts := fun _ _ => .ok "Financials" }

/-- A well-behaved sentiment gateway: each batch response labels item 1
Positive. -/
def gwC2sent : AnalyzeSentiment.SentimentGateway :=
  { attempts := fun _ _ => .ok (some [{ i := 1, sentiment := "Positive" }]) }

def itemsC2 : List NewsItem := [{ headline := "Oil rallies" }, { headline := "Banks slump" }]

/-- A sentiment gateway that fails (rate-limits) exactly the first batch;
any later batch call would succeed. -/
def gwC3sent : AnalyzeSentiment.SentimentGateway :=
  { attempts := fun b _ =>
      if b = 0 then .rateLimit else .ok (some [{ i := 7, sentiment := "Positive" }]) }

/-- The two-run gateways of the C3 witness: 13 items make two batches
([0..11] and [12]); batch 0 is rate-limited in run 1 and mapped in run 2;
everything else coincides. -/
def gwC3run1 : ClassifySector.SectorGateway :=
  { batchAttempts := fun b _ => if b = 0 then .rateLimit else .ok (some [])
    itemAttempts := fun _ _ => .ok "Energy" }

/-- Variant of `gwC3run1` whose batch-0 call succeeds at once but with a
payload the parser cannot read (`.ok none`, so `_backoff_chat` yields
`.ok (some none)`): the second trigger of the per-item fallback. -/
def gwC3run1u : ClassifySector.SectorGateway :=
  { batchAttempts := fun b _ => if b = 0 then .ok none else .ok (some [])
    itemAttempts := fun _ _ => .ok "Energy" }

def entsC3 : List ClassifySector.SectorEntry := [{ i := 5, sector := "Energy" }]

def gwC3run2 : ClassifySector.SectorGateway :=
  { batchAttempts := fun b _ => if b = 0 then .ok (some entsC3) else .ok (some [])
    itemAttempts := fun _ _ => .ok "Energy" }

def itemsC3 : List NewsItem := List.replicate 13 ({} : NewsItem)

/-- The fully rate-limited sector gateway (external service down). -/
def gwAllRL : ClassifySector.SectorGateway :=
  { batchAttempts := fun _ _ => .rateLimit, itemAttempts := fun _ _ => .rateLimit }

/-- Like `gwAllRL` but the per-item calls answer; only used to show the
classifier consults the gateway rather than the cache. -/
def gwItemAnswers : ClassifySector.SectorGateway :=
  { batchAttempts := fun _ _ => .rateLimit, itemAttempts := fun _ _ => .ok "Energy" }

def itemC6 : NewsItem := { headline := "Oil surges", url := "https://a.com/1" }

/-- A cache persisted by a prior writeback for that URL. -/
def cacheC6 : List (String × UtilsCache.CacheEntry) :=
  UtilsCache.set id [] "https://a.com/1" { sector := "Energy", sentiment := "Positive" }

def itemsC9 : List NewsItem := [{ headline := "x" }]
def entC9 : ClassifySector.SectorEntry := { i := 99, sector := "Energy" }
def sentC9 : AnalyzeSentiment.SentEntry := { i := 0, sentiment := "Positive" }

/-! ## Basic lemmas about the embedding -/

theorem modifyAt_nil (f : α → α) (n : Nat) : modifyAt f n [] = [] := by
  cases n <;> rfl

theorem length_modifyAt (f : α → α) : ∀ (n : Nat) (l : List α), (modifyAt f n l).length = l.length
  | n, [] => by rw [modifyAt_nil]
  | 0, _ :: _ => rfl
  | n + 1, _ :: xs => by simp [modifyAt, length_modifyAt f n xs]

theorem modifyAt_of_ge (f : α → α) :
    ∀ (n : Nat) (l : List α), l.length ≤ n → modifyAt f n l = l
  | n, [], _ => modifyAt_nil f n
  | n + 1, x :: xs, h => by
    simp only [List.length_cons, Nat.add_le_add_iff_right] at h
    simp [modifyAt, modifyAt_of_ge f n xs h]

theorem getD_modifyAt_ne (f : α → α) (d : α) :
    ∀ (n j : Nat) (l : List α), j ≠ n → (modifyAt f n l).getD j d = l.getD j d
  | n, _, [], _ => by rw [modifyAt_nil]
  | 0, 0, _ :: _, h => absurd rfl h
  | 0, j + 1, _ :: _, _ => rfl
  | _ + 1, 0, _ :: _, _ => rfl
  | n + 1, j + 1, x :: xs, h => by
    simp only [modifyAt, List.getD_cons_succ]
    exact getD_modifyAt_ne f d n j xs (fun hc => h (by omega))

theorem getD_modifyAt_self (f : α → α) (d : α) :
    ∀ (n : Nat) (l : List α), n < l.length → (modifyAt f n l).getD n d = f (l.getD n d)
  | 0, _ :: _, _ => rfl
  | n + 1, x :: xs, h => by
    simp only [modifyAt, List.getD_cons_succ]
    exact getD_modifyAt_self f d n xs (by simpa using h)

theorem map_modifyAt (f : α → α) (g : α → β) (hg : ∀ x, g (f x) = g x) :
    ∀ (n : Nat) (l : List α), (modifyAt f n l).map g = l.map g
  | n, [] => by rw [modifyAt_nil]
  | 0, x :: xs => by simp [modifyAt, hg x]
  | n + 1, x :: xs => by simp [modifyAt, map_modifyAt f g hg n xs]

theorem mem_modifyAt (f : α → α) :
    ∀ (n : Nat) (l : List α) (y : α), y ∈ modifyAt f n l → y ∈ l ∨ ∃ x, x ∈ l ∧ y = f x
  | n, [], _, h => by rw [modifyAt_nil] at h; exact Or.inl h
  | 0, x :: xs, y, h => by
    rcases List.mem_cons.mp h with h1 | h1
    · exact Or.inr ⟨x, List.mem_cons_self x xs, h1⟩
    · exact Or.inl (List.mem_cons_of_mem x h1)
  | n + 1, x :: xs, y, h => by
    rcases List.mem_cons.mp h with h1 | h1
    · exact Or.inl (h1 ▸ List.mem_cons_self x xs)
    · rcases mem_modifyAt f n xs y h1 with h2 | ⟨z, hz, hy⟩
      · exact Or.inl (List.mem_cons_of_mem x h2)
      · exact Or.inr ⟨z, List.mem_cons_of_mem x hz, hy⟩

theorem getD_mem (d : α) : ∀ (l : List α) (j : Nat), j < l.length → l.getD j d ∈ l
  | x :: xs, 0, _ => List.mem_cons_self x xs
  | x :: xs, j + 1, h =>
    List.mem_cons_of_mem x (getD_mem d xs j (by simpa using h))

theorem mem_exists_getD (d : α) : ∀ (l : List α) (y : α), y ∈ l →
    ∃ j, j < l.length ∧ l.getD j d = y
  | x :: xs, y, h => by
    rcases List.mem_cons.mp h with h1 | h1
    · exact ⟨0, by simp, h1.symm⟩
    · obtain ⟨j, hj, hg⟩ := mem_exists_getD d xs y h1
      exact ⟨j + 1, by simpa using hj, hg⟩

/-! ## Retry-wrapper lemmas -/

namespace ClassifySector

theorem backoffChatGo_no_exn (attempt : Nat → CallResult α)
    (h : ∀ k e, attempt k ≠ .exn e) :
    ∀ (n k : Nat), ∃ o, backoffChatGo attempt k n = .ok o
  | 0, _ => ⟨none, rfl⟩
  | n + 1, k => by
    simp only [backoffChatGo]
    cases hc : attempt k with
    | ok a => exact ⟨some a, rfl⟩
    | rateLimit => exact backoffChatGo_no_exn attempt h n (k + 1)
    | exn e => exact absurd hc (h k e)

theorem backoffChatGo_all_rl (attempt : Nat → CallResult α)
    (h : ∀ k, attempt k = .rateLimit) :
    ∀ (n k : Nat), backoffChatGo attempt k n = .ok none
  | 0, _ => rfl
  | n + 1, k => by
    simp only [backoffChatGo, h k]
    exact backoffChatGo_all_rl attempt h n (k + 1)

theorem backoff_chat_no_exn (attempt : Nat → CallResult α)
    (h : ∀ k e, attempt k ≠ .exn e) : ∃ o, _backoff_chat attempt = .ok o :=
  backoffChatGo_no_exn attempt h MAX_RETRIES 0

theorem backoff_chat_all_rl (attempt : Nat → CallResult α)
    (h : ∀ k, attempt k = .rateLimit) : _backoff_chat attempt = .ok none :=
  backoffChatGo_all_rl attempt h MAX_RETRIES 0

theorem validSector_ne_empty {s : String} (h : validSector s) : s ≠ "" := by
  rcases h with h | h
  · have : ∀ x ∈ GICS_SECTORS, x ≠ "" := by decide
    exact this s h
  · simp [h]

theorem findSector_valid (answer : String) : validSector (findSector answer) := by
  unfold findSector
  cases hf : GICS_SECTORS.find? (fun sector => containsSub answer.data sector.data) with
  | none => exact Or.inr rfl
  | some sector => exact Or.inl (List.mem_of_find?_eq_some hf)

theorem single_classify_ok_valid (attempt : Nat → CallResult String) (s : String)
    (h : _single_classify attempt = .ok s) : validSector s := by
  unfold _single_classify at h
  cases hb : _backoff_chat attempt with
  | error e => simp [hb] at h
  | ok o =>
    cases o with
    | none => simp [hb] at h; exact h ▸ Or.inr rfl
    | some answer =>
      simp [hb] at h
      exact h ▸ findSector_valid answer

theorem single_classify_no_exn (attempt : Nat → CallResult String)
    (h : ∀ k e, attempt k ≠ .exn e) :
    ∃ s, _single_classify attempt = .ok s ∧ validSector s := by
  obtain ⟨o, ho⟩ := backoff_chat_no_exn attempt h
  cases o with
  | none => exact ⟨"Unknown", by simp [_single_classify, ho], Or.inr rfl⟩
  | some answer =>
    exact ⟨findSector answer, by simp [_single_classify, ho], findSector_valid answer⟩

theorem single_classify_all_rl (attempt : Nat → CallResult String)
    (h : ∀ k, attempt k = .rateLimit) : _single_classify attempt = .ok "Unknown" := by
  simp [_single_classify, backoff_chat_all_rl attempt h]

end ClassifySector

namespace AnalyzeSentiment

theorem backoffGo_all_rl (attempt : Nat → CallResult α)
    (h : ∀ k, attempt k = .rateLimit) :
    ∀ (n k : Nat), backoffGo attempt k n = .error "Rate limit: retries exhausted"
  | 0, _ => rfl
  | n + 1, k => by
    simp only [backoffGo, h k]
    exact backoffGo_all_rl attempt h n (k + 1)

theorem backoff_all_rl (attempt : Nat → CallResult α)
    (h : ∀ k, attempt k = .rateLimit) :
    _backoff attempt = .error "Rate limit: retries exhausted" :=
  backoffGo_all_rl attempt h 6 0

end AnalyzeSentiment

namespace DetectThemes

theorem themGo_all_rl (attempt : Nat → CallResult α)
    (h : ∀ k, attempt k = .rateLimit) :
    ∀ (r k : Nat), themGo attempt k r = .error "RateLimitError"
  | 0, k => by simp only [themGo, h k]
  | r + 1, k => by
    simp only [themGo, h k]
    exact themGo_all_rl attempt h r (k + 1)

theorem themes_backoff_all_rl (attempt : Nat → CallResult α)
    (h : ∀ k, attempt k = .rateLimit) : _backoff attempt = .error "RateLimitError" :=
  themGo_all_rl attempt h 5 0

end DetectThemes

/-! ## Frame and invariant lemmas for the sector classifier -/

namespace ClassifySector

theorem perItemFallback_frame (gw : SectorGateway) :
    ∀ (G : List Nat) (l : List NewsItem),
      ((perItemFallback gw G l).2).map clearSector = l.map clearSector
  | [], _ => rfl
  | i :: rest, l => by
    simp only [perItemFallback]
    cases hs : _single_classify (gw.itemAttempts i) with
    | error e => rfl
    | ok s =>
      rw [perItemFallback_frame gw rest]
      exact map_modifyAt (fun it => { it with sector := s }) clearSector (fun x => rfl) i l

theorem applySectorEntry_frame (l : List NewsItem) (e : SectorEntry) :
    (applySectorEntry l e).map clearSector = l.map clearSector := by
  unfold applySectorEntry
  split
  · exact map_modifyAt
      (fun it => { it with sector := if e.sector ∈ GICS_SECTORS then e.sector else "Unknown" })
      clearSector (fun x => rfl) _ l
  · rfl

theorem foldl_applySectorEntry_frame :
    ∀ (entries : List SectorEntry) (l : List NewsItem),
      ((entries.foldl applySectorEntry l).map clearSector) = l.map clearSector
  | [], _ => rfl
  | e :: rest, l => by
    rw [List.foldl_cons, foldl_applySectorEntry_frame rest, applySectorEntry_frame]

theorem processSectorBatches_frame (gw : SectorGateway) :
    ∀ (gs : List (Nat × List Nat)) (l : List NewsItem),
      ((processSectorBatches gw gs l).2).map clearSector = l.map clearSector
  | [], _ => rfl
  | (b, group) :: rest, l => by
    simp only [processSectorBatches]
    cases hb : _backoff_chat (gw.batchAttempts b) with
    | error e => rfl
    | ok o =>
      have hframe := perItemFallback_frame gw group l
      cases o with
      | none =>
        rcases hpf : perItemFallback gw group l with ⟨e2, l2⟩
        rw [hpf] at hframe
        cases e2 with
        | none => simpa [processSectorBatches_frame gw rest l2] using hframe
        | some e3 => simpa using hframe
      | some p =>
        cases p with
        | none =>
          rcases hpf : perItemFallback gw group l with ⟨e2, l2⟩
          rw [hpf] at hframe
          cases e2 with
          | none => simpa [processSectorBatches_frame gw rest l2] using hframe
          | some e3 => simpa using hframe
        | some entries =>
          rw [processSectorBatches_frame gw rest, foldl_applySectorEntry_frame]

theorem finalSweep_frame (gw : SectorGateway) :
    ∀ (idxs : List Nat) (l : List NewsItem),
      ((finalSweep gw idxs l).2).map clearSector = l.map clearSector
  | [], _ => rfl
  | i :: rest, l => by
    simp only [finalSweep]
    split
    · exact finalSweep_frame gw rest l
    · cases hs : _single_classify (gw.itemAttempts i) with
      | error e => rfl
      | ok s =>
        rw [finalSweep_frame gw rest]
        exact map_modifyAt (fun it => { it with sector := s }) clearSector (fun x => rfl) i l

theorem batch_assign_sector_frame (gw : SectorGateway) (items : List NewsItem) :
    ((batch_assign_sector gw items).2).map clearSector = items.map clearSector := by
  unfold batch_assign_sector
  split
  · rfl
  · have hframe := processSectorBatches_frame gw (groupsFor items.length) items
    rcases hp : processSectorBatches gw (groupsFor items.length) items with ⟨e2, l2⟩
    rw [hp] at hframe
    cases e2 with
    | none =>
      have h2 : ((finalSweep gw (List.range l2.length) l2).2).map clearSector
          = items.map clearSector := by
        rw [finalSweep_frame gw (List.range l2.length) l2]
        exact hframe
      exact h2
    | some e3 => exact hframe

theorem map_clearSector_length {l1 l2 : List NewsItem}
    (h : l1.map clearSector = l2.map clearSector) : l1.length = l2.length := by
  have := congrArg List.length h
  simpa using this

theorem batch_assign_sector_length (gw : SectorGateway) (items : List NewsItem) :
    ((batch_assign_sector gw items).2).length = items.length :=
  map_clearSector_length (batch_assign_sector_frame gw items)

theorem sectorInvP_modifyAt {S : String → Prop} {l : List NewsItem}
    (h : sectorInvP S l) (i : Nat) {s : String} (hs : S s) :
    sectorInvP S (modifyAt (fun it => { it with sector := s }) i l) := by
  intro it hit
  rcases mem_modifyAt _ i l it hit with h1 | ⟨x, _, hy⟩
  · exact h it h1
  · right; rw [hy]; exact hs

theorem coerce_valid (s : String) :
    validSector (if s ∈ GICS_SECTORS then s else "Unknown") := by
  split
  · exact Or.inl (by assumption)
  · exact Or.inr rfl

theorem perItemFallback_spec (gw : SectorGateway) (S : String → Prop)
    (hitem : ∀ i, ∃ s, _single_classify (gw.itemAttempts i) = .ok s ∧ S s) :
    ∀ (G : List Nat) (l : List NewsItem), sectorInvP S l →
      (perItemFallback gw G l).1 = none ∧ sectorInvP S (perItemFallback gw G l).2
  | [], l, hl => ⟨rfl, hl⟩
  | i :: rest, l, hl => by
    obtain ⟨s, hs, hS⟩ := hitem i
    simp only [perItemFallback, hs]
    exact perItemFallback_spec gw S hitem rest _ (sectorInvP_modifyAt hl i hS)

theorem applySectorEntry_inv {S : String → Prop} {l : List NewsItem}
    (hl : sectorInvP S l) (e : SectorEntry)
    (he : S (if e.sector ∈ GICS_SECTORS then e.sector else "Unknown")) :
    sectorInvP S (applySectorEntry l e) := by
  unfold applySectorEntry
  split
  · exact sectorInvP_modifyAt hl (e.i - 1).toNat he
  · exact hl

theorem foldl_applySectorEntry_inv {S : String → Prop} :
    ∀ (entries : List SectorEntry) (l : List NewsItem), sectorInvP S l →
      (∀ e ∈ entries, S (if e.sector ∈ GICS_SECTORS then e.sector else "Unknown")) →
      sectorInvP S (entries.foldl applySectorEntry l)
  | [], _, hl, _ => hl
  | e :: rest, l, hl, he => by
    rw [List.foldl_cons]
    exact foldl_applySectorEntry_inv rest _
      (applySectorEntry_inv hl e (he e (List.mem_cons_self e rest)))
      (fun e2 h2 => he e2 (List.mem_cons_of_mem e h2))

theorem processSectorBatches_spec (gw : SectorGateway) (S : String → Prop)
    (hitem : ∀ i, ∃ s, _single_classify (gw.itemAttempts i) = .ok s ∧ S s)
    (hbatch : ∀ b, ∃ o, _backoff_chat (gw.batchAttempts b) = .ok o ∧
      ∀ entries, o = some (some entries) →
        ∀ e ∈ entries, S (if e.sector ∈ GICS_SECTORS then e.sector else "Unknown")) :
    ∀ (gs : List (Nat × List Nat)) (l : List NewsItem), sectorInvP S l →
      (processSectorBatches gw gs l).1 = none
      ∧ sectorInvP S (processSectorBatches gw gs l).2
  | [], l, hl => ⟨rfl, hl⟩
  | (b, group) :: rest, l, hl => by
    obtain ⟨o, ho, hent⟩ := hbatch b
    obtain ⟨hf1, hf2⟩ := perItemFallback_spec gw S hitem group l hl
    rcases hpf : perItemFallback gw group l with ⟨e2, l2⟩
    rw [hpf] at hf1 hf2
    simp only at hf1
    subst hf1
    simp only [processSectorBatches, ho]
    cases o with
    | none =>
      rw [hpf]
      exact processSectorBatches_spec gw S hitem hbatch rest l2 hf2
    | some p =>
      cases p with
      | none =>
        rw [hpf]
        exact processSectorBatches_spec gw S hitem hbatch rest l2 hf2
      | some entries =>
        exact processSectorBatches_spec gw S hitem hbatch rest _
          (foldl_applySectorEntry_inv entries l hl (hent entries rfl))

theorem finalSweep_spec (gw : SectorGateway) (S : String → Prop)
    (hS : ∀ s, S s → s ≠ "")
    (hitem : ∀ i, ∃ s, _single_classify (gw.itemAttempts i) = .ok s ∧ S s) :
    ∀ (idxs : List Nat) (l : List NewsItem), sectorInvP S l →
      (finalSweep gw idxs l).1 = none
      ∧ sectorInvP S (finalSweep gw idxs l).2
      ∧ (∀ j, (finalSweep gw idxs l).2.getD j default = l.getD j default
              ∨ S ((finalSweep gw idxs l).2.getD j default).sector)
      ∧ (∀ j ∈ idxs, j < l.length → S ((finalSweep gw idxs l).2.getD j default).sector)
  | [], l, hl => ⟨rfl, hl, fun _ => Or.inl rfl, fun _ h => absurd h (List.not_mem_nil _)⟩
  | i :: rest, l, hl => by
    simp only [finalSweep]
    split
    · rename_i hne
      obtain ⟨ih1, ih2, ih3, ih4⟩ := finalSweep_spec gw S hS hitem rest l hl
      refine ⟨ih1, ih2, ih3, ?_⟩
      intro j hj hjl
      rcases List.mem_cons.mp hj with hji | hjr
      · subst hji
        rcases ih3 j with heq | hgood
        · rw [heq]
          rcases hl (l.getD j default) (getD_mem default l j hjl) with h0 | h0
          · exact absurd h0 hne
          · exact h0
        · exact hgood
      · exact ih4 j hjr hjl
    · rename_i hemp
      obtain ⟨s, hs, hSs⟩ := hitem i
      simp only [hs]
      set l2 := modifyAt (fun it => { it with sector := s }) i l with hl2
      have hlen2 : l2.length = l.length := length_modifyAt _ i l
      have hinv2 : sectorInvP S l2 := sectorInvP_modifyAt hl i hSs
      obtain ⟨ih1, ih2, ih3, ih4⟩ := finalSweep_spec gw S hS hitem rest l2 hinv2
      refine ⟨ih1, ih2, ?_, ?_⟩
      · intro j
        rcases ih3 j with heq | hgood
        · rw [heq]
          by_cases hij : j = i
          · subst hij
            by_cases hjl : j < l.length
            · right
              rw [hl2, getD_modifyAt_self _ default j l hjl]
              exact hSs
            · left
              rw [hl2, modifyAt_of_ge _ j l (by omega)]
          · left
            rw [hl2, getD_modifyAt_ne _ default i j l hij]
        · right; exact hgood
      · intro j hj hjl
        rcases List.mem_cons.mp hj with hji | hjr
        · subst hji
          rcases ih3 j with heq | hgood
          · rw [heq, hl2, getD_modifyAt_self _ default j l hjl]
            exact hSs
          · exact hgood
        · exact ih4 j hjr (by omega)

theorem batch_assign_sector_spec (gw : SectorGateway) (S : String → Prop)
    (hS : ∀ s, S s → s ≠ "")
    (hitem : ∀ i, ∃ s, _single_classify (gw.itemAttempts i) = .ok s ∧ S s)
    (hbatch : ∀ b, ∃ o, _backoff_chat (gw.batchAttempts b) = .ok o ∧
      ∀ entries, o = some (some entries) →
        ∀ e ∈ entries, S (if e.sector ∈ GICS_SECTORS then e.sector else "Unknown"))
    (items : List NewsItem) (hinv : sectorInvP S items) :
    (batch_assign_sector gw items).1 = none
    ∧ ∀ it ∈ (batch_assign_sector gw items).2, S it.sector := by
  unfold batch_assign_sector
  split
  · rename_i hempty
    rw [List.isEmpty_iff] at hempty
    subst hempty
    exact ⟨rfl, fun it hit => absurd hit (List.not_mem_nil it)⟩
  · obtain ⟨hp1, hp2⟩ := processSectorBatches_spec gw S hitem hbatch
      (groupsFor items.length) items hinv
    rcases hp : processSectorBatches gw (groupsFor items.length) items with ⟨e2, l2⟩
    rw [hp] at hp1 hp2
    simp only at hp1
    subst hp1
    show (finalSweep gw (List.range l2.length) l2).1 = none
      ∧ ∀ it ∈ (finalSweep gw (List.range l2.length) l2).2, S it.sector
    obtain ⟨hs1, _, _, hs4⟩ := finalSweep_spec gw S hS hitem (List.range l2.length) l2 hp2
    refine ⟨hs1, ?_⟩
    intro it hit
    obtain ⟨j, hjlt, hjd⟩ := mem_exists_getD default _ it hit
    have hjlen : j < l2.length := by
      have := map_clearSector_length (finalSweep_frame gw (List.range l2.length) l2)
      omega
    rw [← hjd]
    exact hs4 j (List.mem_range.mpr hjlen) hjlen

end ClassifySector

/-! ## Frame and invariant lemmas for the sentiment classifier -/

namespace AnalyzeSentiment

theorem applySentEntry_frame (l : List NewsItem) (m : SentEntry) :
    (applySentEntry l m).map clearSentiment = l.map clearSentiment := by
  unfold applySentEntry
  split
  · exact map_modifyAt (fun it => { it with sentiment := m.sentiment }) clearSentiment
      (fun x => rfl) _ l
  · rfl

theorem foldl_applySentEntry_frame :
    ∀ (mapping : List SentEntry) (l : List NewsItem),
      ((mapping.foldl applySentEntry l).map clearSentiment) = l.map clearSentiment
  | [], _ => rfl
  | m :: rest, l => by
    rw [List.foldl_cons, foldl_applySentEntry_frame rest, applySentEntry_frame]

theorem processSentBatches_frame (gw : SentimentGateway) (targets : List Nat) :
    ∀ (b : Nat) (gs : List (List Nat)) (l : List NewsItem),
      ((processSentBatches gw targets b gs l).2).map clearSentiment = l.map clearSentiment
  | _, [], _ => rfl
  | b, grp :: rest, l => by
    simp only [processSentBatches]
    split
    · rfl
    · cases hb : _backoff (gw.attempts b) with
      | error e => rfl
      | ok o =>
        cases o with
        | none => rfl
        | some mapping =>
          rw [processSentBatches_frame gw targets (b + 1) rest, foldl_applySentEntry_frame]

theorem neutral_default_frame (l : List NewsItem) :
    ((l.map (fun it => if it.sentiment = "" then { it with sentiment := "Neutral" } else it)).map
      clearSentiment) = l.map clearSentiment := by
  rw [List.map_map]
  refine List.map_congr_left ?_
  intro a _
  simp only [Function.comp_apply]
  split <;> rfl

theorem batch_assign_sentiment_frame (gw : SentimentGateway) (items : List NewsItem) :
    ((batch_assign_sentiment gw items).2).map clearSentiment = items.map clearSentiment := by
  unfold batch_assign_sentiment
  split
  · rfl
  · split
    · rfl
    · have hframe := processSentBatches_frame gw (targetsOf items) 0
        (_chunks (targetsOf items).length) items
      rcases hp : processSentBatches gw (targetsOf items) 0
        (_chunks (targetsOf items).length) items with ⟨e2, l2⟩
      rw [hp] at hframe
      cases e2 with
      | none =>
        have h2 : ((l2.map (fun it =>
            if it.sentiment = "" then { it with sentiment := "Neutral" } else it)).map
              clearSentiment) = items.map clearSentiment := by
          rw [neutral_default_frame l2]
          exact hframe
        exact h2
      | some e3 => exact hframe

theorem map_clearSentiment_length {l1 l2 : List NewsItem}
    (h : l1.map clearSentiment = l2.map clearSentiment) : l1.length = l2.length := by
  have := congrArg List.length h
  simpa using this

theorem sentInvP_modifyAt {l : List NewsItem} (h : sentInvP l) (i : Nat) {s : String}
    (hs : validSent s) :
    sentInvP (modifyAt (fun it => { it with sentiment := s }) i l) := by
  intro it hit
  rcases mem_modifyAt _ i l it hit with h1 | ⟨x, _, hy⟩
  · exact h it h1
  · right; rw [hy]; exact hs

theorem applySentEntry_inv {l : List NewsItem} (hl : sentInvP l) (m : SentEntry)
    (hm : validSent m.sentiment) : sentInvP (applySentEntry l m) := by
  unfold applySentEntry
  split
  · exact sentInvP_modifyAt hl (m.i - 1).toNat hm
  · exact hl

theorem foldl_applySentEntry_inv :
    ∀ (mapping : List SentEntry) (l : List NewsItem), sentInvP l →
      (∀ m ∈ mapping, validSent m.sentiment) → sentInvP (mapping.foldl applySentEntry l)
  | [], _, hl, _ => hl
  | m :: rest, l, hl, hm => by
    rw [List.foldl_cons]
    exact foldl_applySentEntry_inv rest _
      (applySentEntry_inv hl m (hm m (List.mem_cons_self m rest)))
      (fun m2 h2 => hm m2 (List.mem_cons_of_mem m h2))

theorem processSentBatches_spec (gw : SentimentGateway) (targets : List Nat)
    (hb : ∀ b, ∃ mapping, _backoff (gw.attempts b) = .ok (some mapping)
      ∧ ∀ m ∈ mapping, validSent m.sentiment) :
    ∀ (b : Nat) (gs : List (List Nat)) (l : List NewsItem), sentInvP l →
      (processSentBatches gw targets b gs l).1 = none
      ∧ sentInvP (processSentBatches gw targets b gs l).2
  | _, [], l, hl => ⟨rfl, hl⟩
  | b, grp :: rest, l, hl => by
    obtain ⟨mapping, hm, hvalid⟩ := hb b
    simp only [processSentBatches]
    split
    · exact ⟨rfl, hl⟩
    · rw [hm]
      exact processSentBatches_spec gw targets hb (b + 1) rest _
        (foldl_applySentEntry_inv mapping l hl hvalid)

theorem mem_enumFrom_of_mem :
    ∀ (l : List α) (n : Nat) (y : α), y ∈ l → ∃ i, (i, y) ∈ List.enumFrom n l
  | x :: xs, n, y, h => by
    rcases List.mem_cons.mp h with h1 | h1
    · exact ⟨n, by simp [List.enumFrom, h1]⟩
    · obtain ⟨i, hi⟩ := mem_enumFrom_of_mem xs (n + 1) y h1
      exact ⟨i, by simp [List.enumFrom]; exact Or.inr hi⟩

theorem targetsOf_empty {items : List NewsItem} (h : (targetsOf items).isEmpty) :
    ∀ it ∈ items, it.sentiment ≠ "" := by
  intro it hit
  unfold targetsOf at h
  rw [List.isEmpty_iff, List.map_eq_nil_iff, List.filter_eq_nil_iff] at h
  obtain ⟨i, hi⟩ := mem_enumFrom_of_mem items 0 it hit
  have := h (i, it) (by simpa [List.enum] using hi)
  simpa using this

theorem batch_assign_sentiment_spec (gw : SentimentGateway)
    (hb : ∀ b, ∃ mapping, _backoff (gw.attempts b) = .ok (some mapping)
      ∧ ∀ m ∈ mapping, validSent m.sentiment)
    (items : List NewsItem) (hinv : sentInvP items) :
    (batch_assign_sentiment gw items).1 = none
    ∧ ∀ it ∈ (batch_assign_sentiment gw items).2, validSent it.sentiment := by
  unfold batch_assign_sentiment
  split
  · rename_i hempty
    rw [List.isEmpty_iff] at hempty
    subst hempty
    exact ⟨rfl, fun it hit => absurd hit (List.not_mem_nil it)⟩
  · split
    · rename_i htgt
      refine ⟨rfl, ?_⟩
      intro it hit
      rcases hinv it hit with h0 | h0
      · exact absurd h0 (targetsOf_empty (by assumption) it hit)
      · exact h0
    · obtain ⟨hp1, hp2⟩ := processSentBatches_spec gw (targetsOf items) hb 0
        (_chunks (targetsOf items).length) items hinv
      rcases hp : processSentBatches gw (targetsOf items) 0
        (_chunks (targetsOf items).length) items with ⟨e2, l2⟩
      rw [hp] at hp1 hp2
      simp only at hp1
      subst hp1
      refine ⟨rfl, ?_⟩
      intro it hit
      obtain ⟨x, hx, hfx⟩ := List.mem_map.mp hit
      by_cases hxe : x.sentiment = ""
      · rw [← hfx]
        simp only [hxe, if_pos]
        exact Or.inr (Or.inr rfl)
      · rw [← hfx]
        simp only [hxe, if_neg, if_false]
        rcases hp2 x hx with h0 | h0
        · exact absurd h0 hxe
        · exact h0

end AnalyzeSentiment

theorem validSent_ne_empty {s : String} (h : AnalyzeSentiment.validSent s) : s ≠ "" := by
  rcases h with h | h | h <;> simp [h]

namespace UtilsCache

theorem lookupKey_storeKey (k : String) (v : CacheEntry) :
    ∀ (store : List (String × CacheEntry)), lookupKey k (storeKey k v store) = some v
  | [] => by simp [storeKey, lookupKey]
  | (k2, v2) :: rest => by
    by_cases h : k2 = k
    · simp [storeKey, lookupKey, h]
    · simp only [storeKey, lookupKey, if_neg h]
      exact lookupKey_storeKey k v rest

end UtilsCache

/-! ## Claim C1 -/

/-- C1 counterexample: a Brief that fails schema validation makes
`run_morning_brief` raise `ValidationError` with no file written, refuting
"both output files are still written … and no unhandled validation error
escapes". -/
theorem validation_soft_fail_counterexample :
    (Orchestrator.validateAndSave false "2026-02-03" "doc" "md").err = some "ValidationError"
    ∧ (Orchestrator.validateAndSave false "2026-02-03" "doc" "md").files = [] := by
  constructor <;> rfl

/-- C1 (amended): a schema-validation failure in run_morning_brief is an
unhandled `ValidationError` that escapes the function before either output
file is written; both files are written only when validation succeeds. -/
theorem validation_failure_aborts_and_skips_outputs
    (dateStr briefJson briefMd : String) :
    (Orchestrator.validateAndSave false dateStr briefJson briefMd).err = some "ValidationError"
    ∧ (Orchestrator.validateAndSave false dateStr briefJson briefMd).files = []
    ∧ (Orchestrator.validateAndSave true dateStr briefJson briefMd).err = none
    ∧ (Orchestrator.validateAndSave true dateStr briefJson briefMd).files =
        [("outputs/" ++ dateStr ++ "_brief.json", briefJson),
         ("outputs/" ++ dateStr ++ "_brief.md", briefMd)] := by
  refine ⟨rfl, rfl, rfl, rfl⟩

/-! ## Claim C7 -/

/-- C7 counterexample: classify_sector._backoff_chat with every attempt
rate-limited returns `None` (no exception), so the gateway layer does
convert retry exhaustion into a `None` result at this call site. -/
theorem backoff_chat_exhaustion_counterexample :
    ClassifySector._backoff_chat (fun _ => (CallResult.rateLimit : CallResult String))
      = Except.ok none := by
  rfl

/-- C7 (amended): on retry exhaustion, analyze_sentiment._backoff raises
`RuntimeError("Rate limit: retries exhausted")` and detect_themes._backoff
re-raises the last error, but classify_sector._backoff_chat returns `None`
instead of raising; its callers treat `None` as a batch-level failure. -/
theorem backoff_exhaustion_behaviour {α : Type} (attempt : Nat → CallResult α)
    (h : ∀ k, attempt k = .rateLimit) :
    ClassifySector._backoff_chat attempt = .ok none
    ∧ AnalyzeSentiment._backoff attempt = .error "Rate limit: retries exhausted"
    ∧ DetectThemes._backoff attempt = .error "RateLimitError" :=
  ⟨ClassifySector.backoff_chat_all_rl attempt h,
   AnalyzeSentiment.backoff_all_rl attempt h,
   DetectThemes.themes_backoff_all_rl attempt h⟩

/-- Witness for C7 at a concrete always-rate-limited attempt sequence. -/
theorem backoff_exhaustion_behaviour_witness :
    ClassifySector._backoff_chat rlAttempt = .ok none
    ∧ AnalyzeSentiment._backoff rlAttempt = .error "Rate limit: retries exhausted"
    ∧ DetectThemes._backoff rlAttempt = .error "RateLimitError" :=
  backoff_exhaustion_behaviour rlAttempt (fun _ => rfl)

/-! ## Batch-isolation machinery for the sector classifier -/

namespace ClassifySector

theorem agreeOutside_rfl (G : List Nat) (l : List NewsItem) : agreeOutside G l l :=
  ⟨rfl, fun _ _ => rfl⟩

theorem agreeOutside_symm {G : List Nat} {l1 l2 : List NewsItem}
    (h : agreeOutside G l1 l2) : agreeOutside G l2 l1 :=
  ⟨h.1.symm, fun j hj => (h.2 j hj).symm⟩

theorem agreeOutside_trans {G : List Nat} {l1 l2 l3 : List NewsItem}
    (h1 : agreeOutside G l1 l2) (h2 : agreeOutside G l2 l3) : agreeOutside G l1 l3 :=
  ⟨h1.1.trans h2.1, fun j hj => (h1.2 j hj).trans (h2.2 j hj)⟩

theorem modifyAt_within {G : List Nat} {i : Nat} (hi : i ∈ G) (f : NewsItem → NewsItem)
    (l : List NewsItem) : agreeOutside G (modifyAt f i l) l := by
  refine ⟨length_modifyAt f i l, ?_⟩
  intro j hj
  exact getD_modifyAt_ne f default i j l (fun hji => hj (hji ▸ hi))

theorem agreeOutside_mono {G1 G2 : List Nat} {l1 l2 : List NewsItem}
    (hsub : ∀ j, j ∈ G1 → j ∈ G2) (h : agreeOutside G1 l1 l2) : agreeOutside G2 l1 l2 :=
  ⟨h.1, fun j hj => h.2 j (fun hj1 => hj (hsub j hj1))⟩

theorem agreeOutside_modifyAt_both {G : List Nat} {l1 l2 : List NewsItem}
    (h : agreeOutside G l1 l2) (f : NewsItem → NewsItem) (i : Nat) :
    agreeOutside G (modifyAt f i l1) (modifyAt f i l2) := by
  obtain ⟨hlen, hget⟩ := h
  refine ⟨by rw [length_modifyAt, length_modifyAt, hlen], ?_⟩
  intro j hj
  by_cases hij : j = i
  · subst hij
    by_cases hlt : j < l1.length
    · rw [getD_modifyAt_self f default j l1 hlt,
        getD_modifyAt_self f default j l2 (hlen ▸ hlt), hget j hj]
    · rw [modifyAt_of_ge f j l1 (by omega), modifyAt_of_ge f j l2 (by omega)]
      exact hget j hj
  · rw [getD_modifyAt_ne f default i j l1 hij, getD_modifyAt_ne f default i j l2 hij]
    exact hget j hj

theorem perItemFallback_within (gw : SectorGateway) {G : List Nat} :
    ∀ (G0 : List Nat), (∀ i ∈ G0, i ∈ G) →
    ∀ (l : List NewsItem), agreeOutside G (perItemFallback gw G0 l).2 l
  | [], _, l => agreeOutside_rfl G l
  | i :: rest, hsub, l => by
    simp only [perItemFallback]
    cases hs : _single_classify (gw.itemAttempts i) with
    | error e => exact agreeOutside_rfl G l
    | ok s =>
      refine agreeOutside_trans
        (perItemFallback_within gw rest (fun i2 h2 => hsub i2 (List.mem_cons_of_mem i h2)) _)
        (modifyAt_within (hsub i (List.mem_cons_self i rest)) _ l)

theorem applySectorEntry_within {G : List Nat} (e : SectorEntry)
    (he : 0 ≤ e.i - 1 → (e.i - 1).toNat ∈ G) (l : List NewsItem) :
    agreeOutside G (applySectorEntry l e) l := by
  unfold applySectorEntry
  split
  · rename_i hc
    exact modifyAt_within (he hc.1) _ l
  · exact agreeOutside_rfl G l

theorem foldl_applySectorEntry_within {G : List Nat} :
    ∀ (entries : List SectorEntry), (∀ e ∈ entries, 0 ≤ e.i - 1 → (e.i - 1).toNat ∈ G) →
    ∀ (l : List NewsItem), agreeOutside G (entries.foldl applySectorEntry l) l
  | [], _, l => agreeOutside_rfl G l
  | e :: rest, he, l => by
    rw [List.foldl_cons]
    exact agreeOutside_trans
      (foldl_applySectorEntry_within rest (fun e2 h2 => he e2 (List.mem_cons_of_mem e h2)) _)
      (applySectorEntry_within e (he e (List.mem_cons_self e rest)) l)

theorem applySectorEntry_sync {G : List Nat} {l1 l2 : List NewsItem}
    (h : agreeOutside G l1 l2) (e : SectorEntry) :
    agreeOutside G (applySectorEntry l1 e) (applySectorEntry l2 e) := by
  have hlen := h.1
  have hguard : (0 ≤ e.i - 1 ∧ e.i - 1 < (l1.length : Int))
      ↔ (0 ≤ e.i - 1 ∧ e.i - 1 < (l2.length : Int)) := by rw [hlen]
  unfold applySectorEntry
  by_cases hc : 0 ≤ e.i - 1 ∧ e.i - 1 < (l1.length : Int)
  · rw [if_pos hc, if_pos (hguard.mp hc)]
    exact agreeOutside_modifyAt_both h _ _
  · rw [if_neg hc, if_neg (fun hc2 => hc (hguard.mpr hc2))]
    exact h

theorem foldl_applySectorEntry_sync {G : List Nat} :
    ∀ (entries : List SectorEntry) {l1 l2 : List NewsItem}, agreeOutside G l1 l2 →
      agreeOutside G (entries.foldl applySectorEntry l1) (entries.foldl applySectorEntry l2)
  | [], _, _, h => h
  | e :: rest, l1, l2, h => by
    rw [List.foldl_cons, List.foldl_cons]
    exact foldl_applySectorEntry_sync rest (applySectorEntry_sync h e)

theorem perItemFallback_sync {gw1 gw2 : SectorGateway}
    (hitem : gw1.itemAttempts = gw2.itemAttempts) {G : List Nat} :
    ∀ (G0 : List Nat) {l1 l2 : List NewsItem}, agreeOutside G l1 l2 →
      (perItemFallback gw1 G0 l1).1 = (perItemFallback gw2 G0 l2).1
      ∧ agreeOutside G (perItemFallback gw1 G0 l1).2 (perItemFallback gw2 G0 l2).2
  | [], _, _, h => ⟨rfl, h⟩
  | i :: rest, l1, l2, h => by
    simp only [perItemFallback, hitem]
    cases hs : _single_classify (gw2.itemAttempts i) with
    | error e => exact ⟨rfl, h⟩
    | ok s => exact perItemFallback_sync hitem rest (agreeOutside_modifyAt_both h _ i)

theorem finalSweep_sync {gw1 gw2 : SectorGateway}
    (hitem : gw1.itemAttempts = gw2.itemAttempts)
    (hok : ∀ i, ∃ s, _single_classify (gw1.itemAttempts i) = .ok s) {G : List Nat} :
    ∀ (idxs : List Nat) {l1 l2 : List NewsItem}, agreeOutside G l1 l2 →
      (finalSweep gw1 idxs l1).1 = none ∧ (finalSweep gw2 idxs l2).1 = none
      ∧ agreeOutside G (finalSweep gw1 idxs l1).2 (finalSweep gw2 idxs l2).2
  | [], _, _, h => ⟨rfl, rfl, h⟩
  | i :: rest, l1, l2, h => by
    obtain ⟨s, hs⟩ := hok i
    have hs2 : _single_classify (gw2.itemAttempts i) = .ok s := by rw [← hitem]; exact hs
    simp only [finalSweep]
    by_cases hiG : i ∈ G
    · have w1 := modifyAt_within hiG (fun it => { it with sector := s }) l1
      have w2 := modifyAt_within hiG (fun it => { it with sector := s }) l2
      by_cases h1 : (l1.getD i default).sector ≠ ""
      <;> by_cases h2 : (l2.getD i default).sector ≠ ""
      · rw [if_pos h1, if_pos h2]
        exact finalSweep_sync hitem hok rest h
      · rw [if_pos h1, if_neg h2, hs2]
        exact finalSweep_sync hitem hok rest
          (agreeOutside_trans h (agreeOutside_symm w2))
      · rw [if_neg h1, if_pos h2, hs]
        exact finalSweep_sync hitem hok rest (agreeOutside_trans w1 h)
      · rw [if_neg h1, if_neg h2, hs, hs2]
        exact finalSweep_sync hitem hok rest
          (agreeOutside_trans w1 (agreeOutside_trans h (agreeOutside_symm w2)))
    · have hcond : (l1.getD i default).sector = (l2.getD i default).sector := by
        rw [h.2 i hiG]
      by_cases h1 : (l1.getD i default).sector ≠ ""
      · rw [if_pos h1, if_pos (hcond ▸ h1)]
        exact finalSweep_sync hitem hok rest h
      · rw [if_neg h1, if_neg (hcond ▸ h1), hs, hs2]
        exact finalSweep_sync hitem hok rest (agreeOutside_modifyAt_both h _ i)

theorem perItemFallback_ok (gw : SectorGateway)
    (hok : ∀ i, ∃ s, _single_classify (gw.itemAttempts i) = .ok s) :
    ∀ (G0 : List Nat) (l : List NewsItem), (perItemFallback gw G0 l).1 = none
  | [], _ => rfl
  | i :: rest, l => by
    obtain ⟨s, hs⟩ := hok i
    simp only [perItemFallback, hs]
    exact perItemFallback_ok gw hok rest _

theorem processSectorBatches_isolate (gw1 gw2 : SectorGateway) (b : Nat) (G : List Nat)
    (hitem : gw1.itemAttempts = gw2.itemAttempts)
    (hok : ∀ i, ∃ s, _single_classify (gw1.itemAttempts i) = .ok s)
    (hagree : ∀ b2, b2 ≠ b → gw1.batchAttempts b2 = gw2.batchAttempts b2)
    (hfail : _backoff_chat (gw1.batchAttempts b) = .ok none
      ∨ _backoff_chat (gw1.batchAttempts b) = .ok (some none))
    (entries : List SectorEntry)
    (hsucc : _backoff_chat (gw2.batchAttempts b) = .ok (some (some entries)))
    (hconf : ∀ e ∈ entries, 0 ≤ e.i - 1 → (e.i - 1).toNat ∈ G) :
    ∀ (gs : List (Nat × List Nat)), (∀ p ∈ gs, p.1 = b → p.2 = G) →
    ∀ {l1 l2 : List NewsItem}, agreeOutside G l1 l2 →
      (processSectorBatches gw1 gs l1).1 = (processSectorBatches gw2 gs l2).1
      ∧ agreeOutside G (processSectorBatches gw1 gs l1).2 (processSectorBatches gw2 gs l2).2
  | [], _, l1, l2, h => ⟨rfl, h⟩
  | (b2, G2) :: rest, hgs, l1, l2, h => by
    have hrest : ∀ p ∈ rest, p.1 = b → p.2 = G :=
      fun p hp => hgs p (List.mem_cons_of_mem _ hp)
    by_cases hb2 : b2 = b
    · have hG2 : G2 = G := hgs (b2, G2) (List.mem_cons_self _ _) hb2
      subst hG2
      have hfb := hfail
      rcases hfb with hf | hf
      all_goals
        simp only [processSectorBatches]
        rw [hb2, hf, hsucc]
        have hok1 := perItemFallback_ok gw1 hok G2 l1
        have hwith := perItemFallback_within gw1 (G := G2) G2 (fun i hi => hi) l1
        rcases hpf : perItemFallback gw1 G2 l1 with ⟨e1, l1b⟩
        rw [hpf] at hok1 hwith
        simp only at hok1
        subst hok1
        have hw2 := foldl_applySectorEntry_within entries hconf l2
        exact processSectorBatches_isolate gw1 gw2 b G2 hitem hok hagree hfail entries hsucc
          hconf rest hrest
          (agreeOutside_trans hwith (agreeOutside_trans h (agreeOutside_symm hw2)))
    · have heq : gw1.batchAttempts b2 = gw2.batchAttempts b2 := hagree b2 hb2
      simp only [processSectorBatches, heq]
      cases ho : _backoff_chat (gw2.batchAttempts b2) with
      | error e => exact ⟨rfl, h⟩
      | ok o =>
        have hsync := perItemFallback_sync hitem (G := G) G2 h
        rcases hp1 : perItemFallback gw1 G2 l1 with ⟨e1, l1b⟩
        rcases hp2 : perItemFallback gw2 G2 l2 with ⟨e2b, l2b⟩
        rw [hp1, hp2] at hsync
        obtain ⟨hpe, hpa⟩ := hsync
        simp only at hpe
        subst hpe
        cases o with
        | none =>
          cases e1 with
          | none =>
            exact processSectorBatches_isolate gw1 gw2 b G hitem hok hagree hfail entries
              hsucc hconf rest hrest hpa
          | some e3 => exact ⟨rfl, hpa⟩
        | some p =>
          cases p with
          | none =>
            cases e1 with
            | none =>
              exact processSectorBatches_isolate gw1 gw2 b G hitem hok hagree hfail entries
                hsucc hconf rest hrest hpa
            | some e3 => exact ⟨rfl, hpa⟩
          | some entries2 =>
            exact processSectorBatches_isolate gw1 gw2 b G hitem hok hagree hfail entries
              hsucc hconf rest hrest (foldl_applySectorEntry_sync entries2 h)

end ClassifySector

theorem mem_enumFrom_char (d : α) :
    ∀ (l : List α) (n : Nat) (p : Nat × α), p ∈ List.enumFrom n l →
      n ≤ p.1 ∧ p.1 < n + l.length ∧ p.2 = l.getD (p.1 - n) d
  | [], _, p, h => absurd h (List.not_mem_nil p)
  | x :: xs, n, p, h => by
    rcases List.mem_cons.mp h with h1 | h1
    · subst h1
      refine ⟨le_refl n, by simp, ?_⟩
      simp
    · obtain ⟨ha, hb, hc⟩ := mem_enumFrom_char d xs (n + 1) p h1
      refine ⟨by omega, by simp only [List.length_cons]; omega, ?_⟩
      rw [hc]
      have hsub : p.1 - n = (p.1 - (n + 1)) + 1 := by omega
      rw [hsub]
      rfl

theorem enumFrom_snd_unique [Inhabited α] {l : List α} {n : Nat} {p q : Nat × α}
    (hp : p ∈ List.enumFrom n l) (hq : q ∈ List.enumFrom n l) (h1 : p.1 = q.1) :
    p.2 = q.2 := by
  obtain ⟨_, _, hp2⟩ := mem_enumFrom_char default l n p hp
  obtain ⟨_, _, hq2⟩ := mem_enumFrom_char default l n q hq
  rw [hp2, hq2, h1]

/-! ## Lemmas for the theme extractor -/

namespace DetectThemes

theorem mem_firstsAux : ∀ (l seen : List String) (y : String),
    y ∈ firstsAux seen l ↔ (y ∈ l ∧ y ∉ seen)
  | [], seen, y => by simp [firstsAux]
  | x :: xs, seen, y => by
    simp only [firstsAux]
    split
    · rename_i hx
      rw [mem_firstsAux xs seen y]
      constructor
      · exact fun h => ⟨List.mem_cons_of_mem x h.1, h.2⟩
      · rintro ⟨h1, h2⟩
        rcases List.mem_cons.mp h1 with h3 | h3
        · exact absurd (h3 ▸ hx) h2
        · exact ⟨h3, h2⟩
    · rename_i hx
      rw [List.mem_cons, mem_firstsAux xs (x :: seen) y]
      constructor
      · rintro (h1 | ⟨h1, h2⟩)
        · exact ⟨h1 ▸ List.mem_cons_self x xs, h1 ▸ hx⟩
        · exact ⟨List.mem_cons_of_mem x h1, fun hy => h2 (List.mem_cons_of_mem x hy)⟩
      · rintro ⟨h1, h2⟩
        by_cases hyx : y = x
        · exact Or.inl hyx
        · right
          rcases List.mem_cons.mp h1 with h3 | h3
          · exact absurd h3 hyx
          · exact ⟨h3, fun hy => (List.mem_cons.mp hy).elim hyx h2⟩

theorem fold_pick (seq : List String) :
    ∀ (cs : List String) (b : String),
      ∃ r, cs.foldl (pickStep seq) (some b) = some r
        ∧ (r = b ∨ r ∈ cs)
        ∧ countOcc seq b ≤ countOcc seq r
        ∧ ∀ y ∈ cs, countOcc seq y ≤ countOcc seq r
  | [], b => ⟨b, rfl, Or.inl rfl, le_refl _, fun y hy => absurd hy (List.not_mem_nil y)⟩
  | c :: cs, b => by
    rw [List.foldl_cons]
    have hstep : pickStep seq (some b) c
        = if countOcc seq b < countOcc seq c then some c else some b := rfl
    by_cases hlt : countOcc seq b < countOcc seq c
    · rw [hstep, if_pos hlt]
      obtain ⟨r, hr, hmem, hge, hall⟩ := fold_pick seq cs c
      refine ⟨r, hr, ?_, le_trans (le_of_lt hlt) hge, ?_⟩
      · rcases hmem with h | h
        · exact Or.inr (h ▸ List.mem_cons_self c cs)
        · exact Or.inr (List.mem_cons_of_mem c h)
      · intro y hy
        rcases List.mem_cons.mp hy with h | h
        · exact h ▸ hge
        · exact hall y h
    · rw [hstep, if_neg hlt]
      obtain ⟨r, hr, hmem, hge, hall⟩ := fold_pick seq cs b
      refine ⟨r, hr, ?_, hge, ?_⟩
      · rcases hmem with h | h
        · exact Or.inl h
        · exact Or.inr (List.mem_cons_of_mem c h)
      · intro y hy
        rcases List.mem_cons.mp hy with h | h
        · exact h ▸ le_trans (not_lt.mp hlt) hge
        · exact hall y h

theorem mostCommonFirst_spec (seq : List String) (h : seq ≠ []) :
    ∃ r, mostCommonFirst seq = some r ∧ r ∈ seq
      ∧ ∀ y ∈ seq, countOcc seq y ≤ countOcc seq r := by
  obtain ⟨x, xs, rfl⟩ := List.exists_cons_of_ne_nil h
  unfold mostCommonFirst firsts
  simp only [firstsAux]
  rw [if_neg (List.not_mem_nil x), List.foldl_cons]
  have hstep : pickStep (x :: xs) none x = some x := rfl
  rw [hstep]
  obtain ⟨r, hr, hmem, hge, hall⟩ := fold_pick (x :: xs) (firstsAux [x] xs) x
  refine ⟨r, hr, ?_, ?_⟩
  · rcases hmem with h1 | h1
    · exact h1 ▸ List.mem_cons_self x xs
    · exact List.mem_cons_of_mem x ((mem_firstsAux xs [x] r).mp h1).1
  · intro y hy
    by_cases hyx : y = x
    · exact hyx ▸ hge
    · rcases List.mem_cons.mp hy with h1 | h1
      · exact absurd h1 hyx
      · exact hall y ((mem_firstsAux xs [x] y).mpr
          ⟨h1, fun hc => hyx ((List.mem_cons.mp hc).elim id (fun h2 => absurd h2 (List.not_mem_nil y)))⟩)

theorem regionGet_ne_empty (it : NewsItem) : regionGet it ≠ "" := by
  unfold regionGet
  split
  · simp
  · assumption

theorem regionSeq_ne_empty {indices : List Int} {items : List NewsItem} :
    ∀ y ∈ regionSeq indices items, y ≠ "" := by
  intro y hy
  obtain ⟨i, _, hfy⟩ := List.mem_map.mp hy
  exact hfy ▸ regionGet_ne_empty _

end DetectThemes

/-! ## Claim C5 -/

/-- C5: every theme produced by the model path of find_emerging_themes
comes from a candidate whose filtered support is non-empty, and every
index of that filtered support lies in the 1-based range of the input
digest; candidates whose support filters to empty are discarded. -/
theorem theme_grounding_invariant (items : List NewsItem)
    (raw : List DetectThemes.RawTheme) (maxThemes : Nat) :
    ∀ th ∈ DetectThemes.modelPathThemes items raw maxThemes,
      ∃ t ∈ raw, DetectThemes.filteredSupport items.length t ≠ []
        ∧ (∀ i ∈ DetectThemes.filteredSupport items.length t, 1 ≤ i ∧ i ≤ (items.length : Int))
        ∧ th = DetectThemes.enrichTheme items t := by
  intro th hth
  unfold DetectThemes.modelPathThemes at hth
  have hth2 := List.mem_of_mem_take hth
  obtain ⟨t, ht, hfx⟩ := List.mem_map.mp hth2
  obtain ⟨htraw, htf⟩ := List.mem_filter.mp ht
  refine ⟨t, htraw, ?_, ?_, hfx.symm⟩
  · intro hnil
    rw [hnil] at htf
    simp at htf
  · intro i hi
    unfold DetectThemes.filteredSupport at hi
    exact of_decide_eq_true (List.mem_filter.mp hi).2

/-- Witness for C5: of two candidates, the grounded one is kept and the
ungrounded one discarded; the theorem applied to the kept theme exhibits
its support. -/
theorem theme_grounding_invariant_witness :
    DetectThemes.enrichTheme itemsC5 rawGood ∈ DetectThemes.modelPathThemes itemsC5 rawsC5 6
    ∧ DetectThemes.modelPathThemes itemsC5 rawsC5 6
        = [DetectThemes.enrichTheme itemsC5 rawGood]
    ∧ ∃ t ∈ rawsC5, DetectThemes.filteredSupport itemsC5.length t ≠ []
        ∧ (∀ i ∈ DetectThemes.filteredSupport itemsC5.length t,
            1 ≤ i ∧ i ≤ (itemsC5.length : Int))
        ∧ DetectThemes.enrichTheme itemsC5 rawGood = DetectThemes.enrichTheme itemsC5 t := by
  have hfilter : rawsC5.filter
      (fun t => !(DetectThemes.filteredSupport itemsC5.length t).isEmpty) = [rawGood] := rfl
  have heq : DetectThemes.modelPathThemes itemsC5 rawsC5 6
      = [DetectThemes.enrichTheme itemsC5 rawGood] := by
    unfold DetectThemes.modelPathThemes
    rw [hfilter]
    rfl
  have hmem : DetectThemes.enrichTheme itemsC5 rawGood
      ∈ DetectThemes.modelPathThemes itemsC5 rawsC5 6 := by
    rw [heq]
    exact List.mem_singleton.mpr rfl
  exact ⟨hmem, heq, theme_grounding_invariant itemsC5 rawsC5 6 _ hmem⟩

/-! ## Claim C8 -/

/-- C8 counterexample: two supporting items, one Asia and one Global —
the two regions tie at count 1, yet `_majority_region` returns the
first-encountered region "Asia", not "Mixed". -/
theorem majority_region_tie_counterexample :
    DetectThemes._majority_region [1, 2] [itAsia, itGlobal] = "Asia"
    ∧ DetectThemes.countOcc (DetectThemes.regionSeq [1, 2] [itAsia, itGlobal]) "Asia"
        = DetectThemes.countOcc (DetectThemes.regionSeq [1, 2] [itAsia, itGlobal]) "Global"
    ∧ ("Asia" : String) ≠ "Mixed" := by
  exact ⟨rfl, rfl, by decide⟩

/-- C8 (amended): for a theme with at least one valid supporting index,
`_majority_region` returns a region that occurs among the supporting
items' regions and attains the maximal occurrence count (the plurality
winner); when several regions tie for the maximum it returns the
first-encountered one, not "Mixed" — "Mixed" only results when no valid
index contributes a region. -/
theorem majority_region_plurality (indices : List Int) (items : List NewsItem)
    (h : DetectThemes.regionSeq indices items ≠ []) :
    DetectThemes._majority_region indices items ∈ DetectThemes.regionSeq indices items
    ∧ ∀ y ∈ DetectThemes.regionSeq indices items,
        DetectThemes.countOcc (DetectThemes.regionSeq indices items) y
          ≤ DetectThemes.countOcc (DetectThemes.regionSeq indices items)
              (DetectThemes._majority_region indices items) := by
  obtain ⟨r, hr, hmem, hmax⟩ := DetectThemes.mostCommonFirst_spec _ h
  have hne : r ≠ "" := DetectThemes.regionSeq_ne_empty r hmem
  have hval : DetectThemes._majority_region indices items = r := by
    unfold DetectThemes._majority_region
    rw [hr]
    exact if_neg hne
  rw [hval]
  exact ⟨hmem, hmax⟩

/-- Witness for C8: a three-item support with an Asia majority; the
returned region occurs in the support and beats the count of "Global". -/
theorem majority_region_plurality_witness :
    (DetectThemes.regionSeq [1, 2, 3] [itAsia, itGlobal, itAsia] ≠ [])
    ∧ DetectThemes._majority_region [1, 2, 3] [itAsia, itGlobal, itAsia]
        ∈ DetectThemes.regionSeq [1, 2, 3] [itAsia, itGlobal, itAsia]
    ∧ DetectThemes.countOcc (DetectThemes.regionSeq [1, 2, 3] [itAsia, itGlobal, itAsia]) "Global"
        ≤ DetectThemes.countOcc (DetectThemes.regionSeq [1, 2, 3] [itAsia, itGlobal, itAsia])
            (DetectThemes._majority_region [1, 2, 3] [itAsia, itGlobal, itAsia]) := by
  have hmain := majority_region_plurality [1, 2, 3] [itAsia, itGlobal, itAsia] (by decide)
  exact ⟨by decide, hmain.1, hmain.2 "Global" (by decide)⟩

/-! ## Claim C4 -/

/-- C4 counterexample: with no input items and no alert or theme inputs,
the model response used for the market summaries plants a URL of its own
in the composed Brief: the fabricated URL appears in the document while
the composer's inputs contain no URL at all.  The composer copies model
text into market_summaries verbatim, so it cannot guarantee the
no-fabrication property over free-text fields. -/
theorem brief_url_fabrication_counterexample :
    "https://fabricated.example/x" ∈ GenerateBrief.urlsInBrief
        (GenerateBrief.compose_and_generate llmFab "2026-01-01" {} [] [] [] [] [])
    ∧ GenerateBrief.composerInputURLs [] [] = [] := by
  constructor
  · unfold GenerateBrief.urlsInBrief
    refine List.mem_append.mpr (Or.inr ?_)
    decide
  · rfl

/-- C4 (amended): the composer introduces no URL of its own in the
structured fields: every url field of news_by_sector in the composed
Brief is the url of some item passed in news_by_sector, and the
watchlist_alerts and emerging_themes inputs are passed through verbatim.
The free-text market_summaries, however, contain the model response (or
the supplied summary) verbatim, so a URL there is only as grounded as
that text — the original claim fails on it (see the counterexample). -/
theorem brief_structured_urls_from_inputs
    (llm : String → Option String) (date_ : String)
    (ms : GenerateBrief.MarketSummaries) (ev : List GenerateBrief.EconEvent)
    (nbs : List (String × List NewsItem)) (al : List GenerateBrief.AlertObj)
    (th : List DetectThemes.Theme) (si : List (String × GenerateBrief.SentCounts)) :
    (∀ u ∈ GenerateBrief.newsURLs
        (GenerateBrief.compose_and_generate llm date_ ms ev nbs al th si),
       ∃ p ∈ nbs, ∃ it ∈ p.2, u = it.url)
    ∧ (GenerateBrief.compose_and_generate llm date_ ms ev nbs al th si).watchlist_alerts = al
    ∧ (GenerateBrief.compose_and_generate llm date_ ms ev nbs al th si).emerging_themes = th := by
  refine ⟨?_, rfl, rfl⟩
  intro u hu
  unfold GenerateBrief.newsURLs at hu
  obtain ⟨s, hs, hus⟩ := List.mem_flatten.mp hu
  obtain ⟨q, hq, hqs⟩ := List.mem_map.mp hs
  have hq2 : q ∈ (nbs.mergeSort (fun a b => a.1 ≤ b.1)).map
      (fun p => (p.1, p.2.map GenerateBrief.blockOf)) := hq
  obtain ⟨p, hp, hpq⟩ := List.mem_map.mp hq2
  have hpmem : p ∈ nbs := (List.mergeSort_perm nbs _).mem_iff.mp hp
  subst hqs
  subst hpq
  obtain ⟨blk, hblk, hbu⟩ := List.mem_map.mp hus
  obtain ⟨it, hit, hbit⟩ := List.mem_map.mp hblk
  refine ⟨p, hpmem, it, hit, ?_⟩
  rw [← hbu, ← hbit]
  rfl

/-- Witness for C4 at a one-sector input: the single structured URL of the
composed document is traced back to the input item. -/
theorem brief_structured_urls_from_inputs_witness :
    "https://a.com/1" ∈ GenerateBrief.newsURLs
        (GenerateBrief.compose_and_generate llmOk "2026-01-01" {} [] nbsC4 [] [] [])
    ∧ (∃ p ∈ nbsC4, ∃ it ∈ p.2, "https://a.com/1" = it.url)
    ∧ (GenerateBrief.compose_and_generate llmOk "2026-01-01" {} [] nbsC4 [] [] []).watchlist_alerts
        = []
    ∧ (GenerateBrief.compose_and_generate llmOk "2026-01-01" {} [] nbsC4 [] [] []).emerging_themes
        = [] := by
  have hnbs : (GenerateBrief.compose_and_generate llmOk "2026-01-01" {} [] nbsC4 [] [] []).news_by_sector
      = [("Energy", [GenerateBrief.blockOf itC4])] := by
    show ((nbsC4.mergeSort (fun a b => a.1 ≤ b.1)).map
        (fun p => (p.1, p.2.map GenerateBrief.blockOf))) = _
    rw [show nbsC4 = [("Energy", [itC4])] from rfl, List.mergeSort_singleton]
    rfl
  have hmem : "https://a.com/1" ∈ GenerateBrief.newsURLs
      (GenerateBrief.compose_and_generate llmOk "2026-01-01" {} [] nbsC4 [] [] []) := by
    unfold GenerateBrief.newsURLs
    rw [hnbs]
    decide
  exact ⟨hmem,
    (brief_structured_urls_from_inputs llmOk "2026-01-01" {} [] nbsC4 [] [] []).1 _ hmem,
    (brief_structured_urls_from_inputs llmOk "2026-01-01" {} [] nbsC4 [] [] []).2.1,
    (brief_structured_urls_from_inputs llmOk "2026-01-01" {} [] nbsC4 [] [] []).2.2⟩

/-! ## Claim C2 -/

/-- C2 counterexample: one unlabeled item, every gateway attempt
rate-limited (total external-service failure).  batch_assign_sentiment
propagates `RuntimeError("Rate limit: retries exhausted")` and leaves the
item unlabeled instead of terminating with the default "Neutral". -/
theorem sentiment_total_failure_counterexample :
    (AnalyzeSentiment.batch_assign_sentiment { attempts := fun _ _ => .rateLimit }
        [{ headline := "Fed holds rates steady" }]).1 = some "Rate limit: retries exhausted"
    ∧ ((AnalyzeSentiment.batch_assign_sentiment { attempts := fun _ _ => .rateLimit }
        [{ headline := "Fed holds rates steady" }]).2.getD 0 default).sentiment = "" := by
  exact ⟨rfl, rfl⟩

/-- C2 (amended): batch_assign_sector terminates with every item's sector a
non-empty member of GICS_SECTORS ∪ {"Unknown"} for every pattern of
gateway successes and rate-limit failures (non-rate-limit exceptions are
uncaught there), on items whose sectors start unset or valid.
batch_assign_sentiment guarantees the analogous postcondition only when
every batch call returns a parseable payload with schema-valid labels;
under gateway failure it raises instead (see the counterexample). -/
theorem labeling_coverage_amended :
    (∀ (gw : ClassifySector.SectorGateway) (items : List NewsItem),
      ClassifySector.noExn gw →
      (∀ it ∈ items, it.sector = "" ∨ ClassifySector.validSector it.sector) →
      (ClassifySector.batch_assign_sector gw items).1 = none
      ∧ ∀ it ∈ (ClassifySector.batch_assign_sector gw items).2,
          it.sector ≠ "" ∧ ClassifySector.validSector it.sector)
    ∧ (∀ (gw : AnalyzeSentiment.SentimentGateway) (items : List NewsItem),
      (∀ b, ∃ mapping, AnalyzeSentiment._backoff (gw.attempts b) = .ok (some mapping)
        ∧ ∀ m ∈ mapping, AnalyzeSentiment.validSent m.sentiment) →
      (∀ it ∈ items, it.sentiment = "" ∨ AnalyzeSentiment.validSent it.sentiment) →
      (AnalyzeSentiment.batch_assign_sentiment gw items).1 = none
      ∧ ∀ it ∈ (AnalyzeSentiment.batch_assign_sentiment gw items).2,
          it.sentiment ≠ "" ∧ AnalyzeSentiment.validSent it.sentiment) := by
  constructor
  · intro gw items hnoexn hinv
    have hitem : ∀ i, ∃ s, ClassifySector._single_classify (gw.itemAttempts i) = .ok s
        ∧ ClassifySector.validSector s :=
      fun i => ClassifySector.single_classify_no_exn (gw.itemAttempts i)
        (fun k e => hnoexn.2 i k e)
    have hbatch : ∀ b, ∃ o, ClassifySector._backoff_chat (gw.batchAttempts b) = .ok o ∧
        ∀ entries, o = some (some entries) →
          ∀ e ∈ entries, ClassifySector.validSector
            (if e.sector ∈ GICS_SECTORS then e.sector else "Unknown") := by
      intro b
      obtain ⟨o, ho⟩ := ClassifySector.backoff_chat_no_exn (gw.batchAttempts b)
        (fun k e => hnoexn.1 b k e)
      exact ⟨o, ho, fun entries _ e _ => ClassifySector.coerce_valid e.sector⟩
    obtain ⟨h1, h2⟩ := ClassifySector.batch_assign_sector_spec gw ClassifySector.validSector
      (fun s hs => ClassifySector.validSector_ne_empty hs) hitem hbatch items hinv
    exact ⟨h1, fun it hit =>
      ⟨ClassifySector.validSector_ne_empty (h2 it hit), h2 it hit⟩⟩
  · intro gw items hb hinv
    obtain ⟨h1, h2⟩ := AnalyzeSentiment.batch_assign_sentiment_spec gw hb items hinv
    exact ⟨h1, fun it hit => ⟨validSent_ne_empty (h2 it hit), h2 it hit⟩⟩

/-- Witness for C2 at concrete gateways and items: the postconditions are
read off at position 0 of the two-item run. -/
theorem labeling_coverage_amended_witness :
    (ClassifySector.batch_assign_sector gwC2sector itemsC2).1 = none
    ∧ ((ClassifySector.batch_assign_sector gwC2sector itemsC2).2.getD 0 default).sector ≠ ""
    ∧ ClassifySector.validSector
        ((ClassifySector.batch_assign_sector gwC2sector itemsC2).2.getD 0 default).sector
    ∧ (AnalyzeSentiment.batch_assign_sentiment gwC2sent itemsC2).1 = none
    ∧ AnalyzeSentiment.validSent
        ((AnalyzeSentiment.batch_assign_sentiment gwC2sent itemsC2).2.getD 0 default).sentiment := by
  have hnoexn : ClassifySector.noExn gwC2sector :=
    ⟨fun b k e => by simp [gwC2sector], fun i k e => by simp [gwC2sector]⟩
  have hsec : ∀ it ∈ itemsC2, it.sector = "" ∨ ClassifySector.validSector it.sector := by decide
  have hb : ∀ b, ∃ mapping, AnalyzeSentiment._backoff (gwC2sent.attempts b) = .ok (some mapping)
      ∧ ∀ m ∈ mapping, AnalyzeSentiment.validSent m.sentiment :=
    fun b => ⟨[{ i := 1, sentiment := "Positive" }], rfl, by decide⟩
  have hsen : ∀ it ∈ itemsC2, it.sentiment = "" ∨ AnalyzeSentiment.validSent it.sentiment := by
    decide
  obtain ⟨h1, h2⟩ := labeling_coverage_amended.1 gwC2sector itemsC2 hnoexn hsec
  obtain ⟨h3, h4⟩ := labeling_coverage_amended.2 gwC2sent itemsC2 hb hsen
  have hm1 := h2 _ (getD_mem default (ClassifySector.batch_assign_sector gwC2sector itemsC2).2 0
    (by decide))
  have hm2 := h4 _ (getD_mem default (AnalyzeSentiment.batch_assign_sentiment gwC2sent itemsC2).2 0
    (by decide))
  exact ⟨h1, hm1.1, hm1.2, h3, hm2.2⟩

/-! ## Claim C3 -/

/-- C3 counterexample: seven unlabeled items form two sentiment batches
(6 + 1); the gateway fails only for the first batch, whose failure
raises out of batch_assign_sentiment before the second batch is ever
processed — the seventh item stays unlabeled even though its own batch
call would have succeeded.  No per-item fallback exists for sentiment, so
a batch failure is not isolated to that batch. -/
theorem sentiment_batch_failure_counterexample :
    (AnalyzeSentiment.batch_assign_sentiment gwC3sent
        (List.replicate 7 ({} : NewsItem))).1 = some "Rate limit: retries exhausted"
    ∧ ((AnalyzeSentiment.batch_assign_sentiment gwC3sent
        (List.replicate 7 ({} : NewsItem))).2.getD 6 default).sentiment = ""
    ∧ AnalyzeSentiment._backoff (gwC3sent.attempts 1)
        = .ok (some [{ i := 7, sentiment := "Positive" }]) := by
  exact ⟨rfl, rfl, rfl⟩

/-- C3 (amended): for the sector classifier the isolation holds.  If batch
`b` (with index group `G`) fails in run 1 — either by exhausting its
retries (`_backoff_chat` returns `.ok none`) or by receiving a payload
the parser cannot read (`.ok (some none)`), the two triggers of the
per-item fallback — while run 2 receives a parseable mapping confined to
`G`, and the two runs otherwise agree (same per-item attempt outcomes,
none a non-rate-limit exception; same outcomes for every other batch),
then both runs produce the same error outcome and itemwise-identical
results outside `G`: run 1 falls back to per-item classification inside
batch `b` only.  The sentiment classifier has no per-item fallback — a
failing batch raises and later batches are never classified (see the
counterexample). -/
theorem sector_batch_failure_isolation
    (gw1 gw2 : ClassifySector.SectorGateway) (items : List NewsItem)
    (b : Nat) (G : List Nat)
    (hmem : (b, G) ∈ ClassifySector.groupsFor items.length)
    (hitem : gw1.itemAttempts = gw2.itemAttempts)
    (hitemNoExn : ∀ i k e, gw1.itemAttempts i k ≠ .exn e)
    (hagree : ∀ b2, b2 ≠ b → gw1.batchAttempts b2 = gw2.batchAttempts b2)
    (hfail : ClassifySector._backoff_chat (gw1.batchAttempts b) = .ok none
      ∨ ClassifySector._backoff_chat (gw1.batchAttempts b) = .ok (some none))
    (entries : List ClassifySector.SectorEntry)
    (hsucc : ClassifySector._backoff_chat (gw2.batchAttempts b) = .ok (some (some entries)))
    (hconf : ∀ e ∈ entries, 0 ≤ e.i - 1 → (e.i - 1).toNat ∈ G) :
    (ClassifySector.batch_assign_sector gw1 items).1
      = (ClassifySector.batch_assign_sector gw2 items).1
    ∧ (ClassifySector.batch_assign_sector gw1 items).2.length
      = (ClassifySector.batch_assign_sector gw2 items).2.length
    ∧ ∀ j, j ∉ G →
        (ClassifySector.batch_assign_sector gw1 items).2.getD j default
          = (ClassifySector.batch_assign_sector gw2 items).2.getD j default := by
  have hok : ∀ i, ∃ s, ClassifySector._single_classify (gw1.itemAttempts i) = .ok s := by
    intro i
    obtain ⟨s, hs, _⟩ := ClassifySector.single_classify_no_exn (gw1.itemAttempts i)
      (fun k e => hitemNoExn i k e)
    exact ⟨s, hs⟩
  have hgs : ∀ p ∈ ClassifySector.groupsFor items.length, p.1 = b → p.2 = G := by
    intro p hp hp1
    exact enumFrom_snd_unique (p := p) (q := (b, G)) hp hmem hp1
  unfold ClassifySector.batch_assign_sector
  split
  · exact ⟨rfl, rfl, fun j hj => rfl⟩
  · obtain ⟨herr, hagree2⟩ := ClassifySector.processSectorBatches_isolate gw1 gw2 b G hitem
      hok hagree hfail entries hsucc hconf (ClassifySector.groupsFor items.length) hgs
      (ClassifySector.agreeOutside_rfl G items)
    rcases hp1 : ClassifySector.processSectorBatches gw1
      (ClassifySector.groupsFor items.length) items with ⟨e1, l1b⟩
    rcases hp2 : ClassifySector.processSectorBatches gw2
      (ClassifySector.groupsFor items.length) items with ⟨e2, l2b⟩
    rw [hp1, hp2] at herr hagree2
    simp only at herr
    subst herr
    cases e1 with
    | some e => exact ⟨rfl, hagree2.1, fun j hj => hagree2.2 j hj⟩
    | none =>
      have hlen : l1b.length = l2b.length := hagree2.1
      show (ClassifySector.finalSweep gw1 (List.range l1b.length) l1b).1
          = (ClassifySector.finalSweep gw2 (List.range l2b.length) l2b).1
        ∧ (ClassifySector.finalSweep gw1 (List.range l1b.length) l1b).2.length
          = (ClassifySector.finalSweep gw2 (List.range l2b.length) l2b).2.length
        ∧ ∀ j, j ∉ G →
            (ClassifySector.finalSweep gw1 (List.range l1b.length) l1b).2.getD j default
              = (ClassifySector.finalSweep gw2 (List.range l2b.length) l2b).2.getD j default
      rw [hlen]
      obtain ⟨hs1, hs2, hsagree⟩ :=
        ClassifySector.finalSweep_sync hitem hok (List.range l2b.length) hagree2
      exact ⟨by rw [hs1, hs2], hsagree.1, fun j hj => hsagree.2 j hj⟩

/-- Witness for C3 at the concrete two-batch configuration, once per
failure trigger: run 1 with batch 0 rate-limited to exhaustion
(`gwC3run1`) and run 1 with an unparseable batch-0 payload (`gwC3run1u`);
outside the failing batch (position 12, the second batch), each of them
agrees with the successful run `gwC3run2`. -/
theorem sector_batch_failure_isolation_witness :
    (0, List.range 12) ∈ ClassifySector.groupsFor itemsC3.length
    ∧ (ClassifySector.batch_assign_sector gwC3run1 itemsC3).1
        = (ClassifySector.batch_assign_sector gwC3run2 itemsC3).1
    ∧ (ClassifySector.batch_assign_sector gwC3run1 itemsC3).2.length
        = (ClassifySector.batch_assign_sector gwC3run2 itemsC3).2.length
    ∧ (ClassifySector.batch_assign_sector gwC3run1 itemsC3).2.getD 12 default
        = (ClassifySector.batch_assign_sector gwC3run2 itemsC3).2.getD 12 default
    ∧ (ClassifySector.batch_assign_sector gwC3run1u itemsC3).1
        = (ClassifySector.batch_assign_sector gwC3run2 itemsC3).1
    ∧ (ClassifySector.batch_assign_sector gwC3run1u itemsC3).2.length
        = (ClassifySector.batch_assign_sector gwC3run2 itemsC3).2.length
    ∧ (ClassifySector.batch_assign_sector gwC3run1u itemsC3).2.getD 12 default
        = (ClassifySector.batch_assign_sector gwC3run2 itemsC3).2.getD 12 default := by
  have hmain := sector_batch_failure_isolation gwC3run1 gwC3run2 itemsC3 0 (List.range 12)
    (by decide) rfl (fun i k e => by simp [gwC3run1]) (by
      intro b2 hb2
      funext k
      simp [gwC3run1, gwC3run2, hb2]) (Or.inl rfl) entsC3 rfl (by decide)
  have hmainU := sector_batch_failure_isolation gwC3run1u gwC3run2 itemsC3 0 (List.range 12)
    (by decide) rfl (fun i k e => by simp [gwC3run1u]) (by
      intro b2 hb2
      funext k
      simp [gwC3run1u, gwC3run2, hb2]) (Or.inr rfl) entsC3 rfl (by decide)
  exact ⟨by decide, hmain.1, hmain.2.1, hmain.2.2 12 (by decide),
    hmainU.1, hmainU.2.1, hmainU.2.2 12 (by decide)⟩

/-! ## Claim C6 -/

/-- C6 counterexample: the cache holds Energy/Positive for the item's URL,
yet with the gateway disabled batch_assign_sector labels the item
"Unknown" — the cached label is not read — and changing only the per-item
gateway responses changes the label, so a gateway call is made for the
item. -/
theorem cache_prefill_counterexample :
    UtilsCache.get id cacheC6 "https://a.com/1"
      = some { sector := "Energy", sentiment := "Positive" }
    ∧ ((ClassifySector.batch_assign_sector gwAllRL [itemC6]).2.getD 0 default).sector
        = "Unknown"
    ∧ ((ClassifySector.batch_assign_sector gwItemAnswers [itemC6]).2.getD 0 default).sector
        = "Energy"
    ∧ ("Unknown" : String) ≠ "Energy" := by
  exact ⟨rfl, rfl, rfl, by decide⟩

/-- C6 (amended): the cache module itself round-trips (get after set
returns the stored entry, an absent key reads as the empty dict), but
neither classifier ever consults it: with the gateway disabled (all
attempts rate-limited), batch_assign_sector terminates normally and labels
every initially unlabeled item "Unknown", whatever any cache contains. -/
theorem cache_get_set_and_classifier_independence :
    (∀ (keyFn : String → String) (store : List (String × UtilsCache.CacheEntry))
       (url : String) (v : UtilsCache.CacheEntry),
       UtilsCache.get keyFn (UtilsCache.set keyFn store url v) url = some v)
    ∧ (∀ (gw : ClassifySector.SectorGateway) (items : List NewsItem),
       (∀ b k, gw.batchAttempts b k = .rateLimit) →
       (∀ i k, gw.itemAttempts i k = .rateLimit) →
       (∀ it ∈ items, it.sector = "") →
       (ClassifySector.batch_assign_sector gw items).1 = none
       ∧ ((ClassifySector.batch_assign_sector gw items).2).map (fun it => it.sector)
           = List.replicate items.length "Unknown") := by
  constructor
  · intro keyFn store url v
    exact UtilsCache.lookupKey_storeKey (keyFn url) v store
  · intro gw items hbrl hirl hunset
    have hitem : ∀ i, ∃ s, ClassifySector._single_classify (gw.itemAttempts i) = .ok s
        ∧ s = "Unknown" :=
      fun i => ⟨"Unknown", ClassifySector.single_classify_all_rl (gw.itemAttempts i) (hirl i), rfl⟩
    have hbatch : ∀ b, ∃ o, ClassifySector._backoff_chat (gw.batchAttempts b) = .ok o ∧
        ∀ entries, o = some (some entries) →
          ∀ e ∈ entries, (if e.sector ∈ GICS_SECTORS then e.sector else "Unknown") = "Unknown" :=
      fun b => ⟨none, ClassifySector.backoff_chat_all_rl (gw.batchAttempts b) (hbrl b),
        fun entries h => by simp at h⟩
    have hinv : ClassifySector.sectorInvP (fun s => s = "Unknown") items :=
      fun it hit => Or.inl (hunset it hit)
    obtain ⟨h1, h2⟩ := ClassifySector.batch_assign_sector_spec gw (fun s => s = "Unknown")
      (fun s hs => by rw [hs]; decide) hitem hbatch items hinv
    refine ⟨h1, ?_⟩
    rw [List.eq_replicate_iff]
    constructor
    · rw [List.length_map]
      exact ClassifySector.batch_assign_sector_length gw items
    · intro b hbmem
      obtain ⟨x, hx, hfx⟩ := List.mem_map.mp hbmem
      rw [← hfx]
      exact h2 x hx

/-- Witness for C6 at the concrete cache, items and disabled gateway. -/
theorem cache_get_set_and_classifier_independence_witness :
    UtilsCache.get id (UtilsCache.set id [] "https://a.com/1"
        { sector := "Energy", sentiment := "Positive" }) "https://a.com/1"
        = some { sector := "Energy", sentiment := "Positive" }
    ∧ (ClassifySector.batch_assign_sector gwAllRL [itemC6]).1 = none
    ∧ ((ClassifySector.batch_assign_sector gwAllRL [itemC6]).2).map (fun it => it.sector)
        = List.replicate ([itemC6].length) "Unknown" := by
  obtain ⟨h1, h2⟩ := cache_get_set_and_classifier_independence.2 gwAllRL [itemC6]
    (fun b k => rfl) (fun i k => rfl) (by decide)
  exact ⟨cache_get_set_and_classifier_independence.1 id [] "https://a.com/1"
    { sector := "Energy", sentiment := "Positive" }, h1, h2⟩

/-! ## Claim C9 -/

/-- C9: a mapping entry whose 1-based index is outside [1, len(items)] is
ignored (label application is the identity there), and applying any list
of returned entries never changes the length of the item list — no
out-of-bounds read or write is possible, whatever indices the model
returns.  Both classifiers. -/
theorem mapping_index_bounds_safety :
    (∀ (items : List NewsItem) (e : ClassifySector.SectorEntry),
      ¬(1 ≤ e.i ∧ e.i ≤ (items.length : Int)) →
      ClassifySector.applySectorEntry items e = items)
    ∧ (∀ (items : List NewsItem) (m : AnalyzeSentiment.SentEntry),
      ¬(1 ≤ m.i ∧ m.i ≤ (items.length : Int)) →
      AnalyzeSentiment.applySentEntry items m = items)
    ∧ (∀ (items : List NewsItem) (entries : List ClassifySector.SectorEntry),
      (entries.foldl ClassifySector.applySectorEntry items).length = items.length)
    ∧ (∀ (items : List NewsItem) (mapping : List AnalyzeSentiment.SentEntry),
      (mapping.foldl AnalyzeSentiment.applySentEntry items).length = items.length) := by
  refine ⟨?_, ?_, ?_, ?_⟩
  · intro items e h
    unfold ClassifySector.applySectorEntry
    rw [if_neg]
    intro hc
    exact h ⟨by omega, by omega⟩
  · intro items m h
    unfold AnalyzeSentiment.applySentEntry
    rw [if_neg]
    intro hc
    exact h ⟨by omega, by omega⟩
  · intro items entries
    exact ClassifySector.map_clearSector_length
      (ClassifySector.foldl_applySectorEntry_frame entries items)
  · intro items mapping
    exact AnalyzeSentiment.map_clearSentiment_length
      (AnalyzeSentiment.foldl_applySentEntry_frame mapping items)

/-- Witness for C9: an index far past the end and the 0 default index are
both ignored on a one-item list. -/
theorem mapping_index_bounds_safety_witness :
    (¬(1 ≤ entC9.i ∧ entC9.i ≤ (itemsC9.length : Int)))
    ∧ ClassifySector.applySectorEntry itemsC9 entC9 = itemsC9
    ∧ (¬(1 ≤ sentC9.i ∧ sentC9.i ≤ (itemsC9.length : Int)))
    ∧ AnalyzeSentiment.applySentEntry itemsC9 sentC9 = itemsC9
    ∧ ([entC9].foldl ClassifySector.applySectorEntry itemsC9).length = itemsC9.length := by
  refine ⟨by decide, mapping_index_bounds_safety.1 itemsC9 entC9 (by decide),
    by decide, mapping_index_bounds_safety.2.1 itemsC9 sentC9 (by decide),
    mapping_index_bounds_safety.2.2.1 itemsC9 [entC9]⟩

/-! ## Claim C10 -/

/-- C10: for every gateway behaviour (success, rate limiting, exceptions,
arbitrary payloads), batch_assign_sector changes at most the `sector`
field and batch_assign_sentiment at most the `sentiment` field: erasing
that one field from the result gives back exactly the input list, so
length, order, and every other field of every item are unchanged. -/
theorem classifier_frame_effect :
    (∀ (gw : ClassifySector.SectorGateway) (items : List NewsItem),
      ((ClassifySector.batch_assign_sector gw items).2).map ClassifySector.clearSector
        = items.map ClassifySector.clearSector
      ∧ ((ClassifySector.batch_assign_sector gw items).2).length = items.length)
    ∧ (∀ (gw : AnalyzeSentiment.SentimentGateway) (items : List NewsItem),
      ((AnalyzeSentiment.batch_assign_sentiment gw items).2).map AnalyzeSentiment.clearSentiment
        = items.map AnalyzeSentiment.clearSentiment
      ∧ ((AnalyzeSentiment.batch_assign_sentiment gw items).2).length = items.length) :=
  ⟨fun gw items => ⟨ClassifySector.batch_assign_sector_frame gw items,
      ClassifySector.batch_assign_sector_length gw items⟩,
   fun gw items => ⟨AnalyzeSentiment.batch_assign_sentiment_frame gw items,
      AnalyzeSentiment.map_clearSentiment_length
        (AnalyzeSentiment.batch_assign_sentiment_frame gw items)⟩⟩

end DailyBrief
